import Mathlib

/-!
# Cold-storage booking ledger (backend/routes/coldstorage.js)

A shallow embedding of the two state-changing booking handlers of the
cold-storage router, `router.post('/:id/book')` and
`router.put('/:id/booking/:bookingId')`, over the document shape declared in
`backend/models/ColdStorage.js`, followed by its two booking listings and by
the invoice, bid, loan and FPO handlers of `backend/routes/invoices.js`,
`marketplace.js`, `loans.js` and `fpo.js`.

Conventions of the embedding:
* In the cold-storage model capacities, quantities and rates are whole numbers
  (`Int`), on which the arithmetic of JavaScript numbers is exact (below
  2^53); fractional quantities are outside this model. Dates are integer
  millisecond timestamps, so `new Date(b) - new Date(a)` is the integer
  `b - a`. The invoice, loan and FPO models use JavaScript numbers with their
  binary64 rounding (`JsNumber`).
* ObjectIds (users, bookings) are natural numbers.
* A handler receives the document returned by `ColdStorage.findById` and
  returns the document as it is stored afterwards, paired with the HTTP
  response. A handler that returns before `save()` (or whose `save()`
  throws) stores nothing, so the document is returned unchanged.
-/

namespace ColdStorage

/-- The `enum` of `bookings.status` in the schema. -/
inductive Status where
  | pending
  | confirmed
  | active
  | completed
  | cancelled
  deriving DecidableEq, Repr

/-- Schema enum validator for `bookings.status`: the strings that `save()`
accepts, with the enum member each one denotes. -/
def Status.ofString (s : String) : Option Status :=
  if s = "pending" then some Status.pending
  else if s = "confirmed" then some Status.confirmed
  else if s = "active" then some Status.active
  else if s = "completed" then some Status.completed
  else if s = "cancelled" then some Status.cancelled
  else none

/-- The statuses `completed` and `cancelled` (the glossary's terminal status). -/
def Status.isTerminal : Status → Bool
  | Status.completed => true
  | Status.cancelled => true
  | _ => false

/-- One element of `coldStorageSchema.bookings`. The schema declares no `cost`
path, so a stored booking has none. `_id` is the subdocument id mongoose
assigns on `push`. -/
structure Booking where
  _id : Nat
  user : Nat
  crop : String
  quantity : Int
  startDate : Int
  endDate : Int
  status : Status
  deriving DecidableEq, Repr

/-- The `facilities` sub-object of the schema (capacity fields). -/
structure Facilities where
  totalCapacity : Int
  availableCapacity : Int
  deriving DecidableEq, Repr

/-- The `pricing` sub-object of the schema. -/
structure Pricing where
  baseRate : Int
  perTonPerDay : Int
  minimumPeriod : Int
  deriving DecidableEq, Repr

/-- A `ColdStorage` document: the paths the booking handlers read or write,
plus the identity paths (`_id`, `owner`, `name`, `location`). -/
structure Facility where
  _id : Nat
  owner : Nat
  name : String
  location : String
  facilities : Facilities
  pricing : Pricing
  bookings : List Booking
  isActive : Bool
  deriving DecidableEq, Repr

/-- Body of `POST /:id/book` (`req.body`), after destructuring, for a request
whose `quantity` is a whole number and whose dates are timestamps. -/
structure BookRequest where
  crop : String
  quantity : Int
  startDate : Int
  endDate : Int
  specialInstructions : String
  deriving DecidableEq, Repr

/-- The `booking` object of the success response of `POST /:id/book`:
the local `booking` literal spread, plus `facility` and `totalCost`. -/
structure BookingReceipt where
  user : Nat
  crop : String
  quantity : Int
  startDate : Int
  endDate : Int
  status : Status
  cost : Int
  facility : String
  totalCost : Int
  deriving DecidableEq, Repr

/-- What a handler sends: `res.status(code).json(body)`. -/
inductive Reply (α : Type) where
  | ok (message : String) (body : α)
  | error (code : Nat) (message : String)
  deriving DecidableEq, Repr

/-- The HTTP status code of a reply (`res.json` without `res.status` is 200). -/
def Reply.code {α : Type} : Reply α → Nat
  | Reply.ok _ _ => 200
  | Reply.error c _ => c

/-- The constant `1000 * 60 * 60 * 24` of line 164. -/
def msPerDay : Int := 1000 * 60 * 60 * 24

/-- Line 164: `Math.ceil((new Date(endDate) - new Date(startDate)) / msPerDay)`,
the quotient rounded towards plus infinity, computed on integers. -/
def bookingDays (startDate endDate : Int) : Int :=
  -((-(endDate - startDate)) / msPerDay)

/-- Line 165: `days * quantity * coldStorage.pricing.perTonPerDay`. -/
def bookingCost (cs : Facility) (req : BookRequest) : Int :=
  bookingDays req.startDate req.endDate * req.quantity * cs.pricing.perTonPerDay

/-- Handler of `router.post('/:id/book')`, lines 158-189, for the document
`cs` found by `findById`, the authenticated user `user` (`req.user._id`) and
the id `newId` that mongoose gives the pushed subdocument. -/
def createBooking (cs : Facility) (user : Nat) (newId : Nat) (req : BookRequest) :
    Facility × Reply BookingReceipt :=
  if cs.facilities.availableCapacity < req.quantity then
    (cs, Reply.error 400 "Insufficient capacity available")
  else
    let cost := bookingCost cs req
    let booking : Booking :=
      { _id := newId, user := user, crop := req.crop, quantity := req.quantity,
        startDate := req.startDate, endDate := req.endDate, status := Status.pending }
    let saved : Facility :=
      { cs with
        bookings := cs.bookings ++ [booking]
        facilities :=
          { cs.facilities with
            availableCapacity := cs.facilities.availableCapacity - req.quantity } }
    (saved, Reply.ok "Cold storage booking created successfully"
      { user := user, crop := req.crop, quantity := req.quantity,
        startDate := req.startDate, endDate := req.endDate, status := Status.pending,
        cost := cost, facility := cs.name, totalCost := cost })

/-- Mongoose `bookings.id(bookingId)`: the first subdocument with that `_id`. -/
def findBooking (bs : List Booking) (bookingId : Nat) : Option Booking :=
  bs.find? (fun b => b._id == bookingId)

/-- Line 233, `booking.status = status`, on the subdocument that
`bookings.id(bookingId)` returned: the first booking with that `_id` gets the
new status, every other element stays as it is. -/
def assignStatus (bs : List Booking) (bookingId : Nat) (st : Status) : List Booking :=
  match bs with
  | [] => []
  | b :: rest =>
    if b._id == bookingId then { b with status := st } :: rest
    else b :: assignStatus rest bookingId st

/-- Handler of `router.put('/:id/booking/:bookingId')`, lines 224-245, for the
document `cs` found by `findById`, the authenticated user `actor` and the
request's `status` string. A string outside the schema enum makes `save()`
throw a validation error, which the `catch` turns into a 500 with nothing
stored. -/
def transitionBookingStatus (cs : Facility) (actor : Nat) (bookingId : Nat)
    (status : String) : Facility × Reply Booking :=
  if cs.owner ≠ actor then
    (cs, Reply.error 403 "Not authorized")
  else
    match findBooking cs.bookings bookingId with
    | none => (cs, Reply.error 404 "Booking not found")
    | some booking =>
      match Status.ofString status with
      | none => (cs, Reply.error 500 "Server error")
      | some st =>
        let available :=
          if status = "cancelled" ∨ status = "completed" then
            cs.facilities.availableCapacity + booking.quantity
          else cs.facilities.availableCapacity
        let saved : Facility :=
          { cs with
            bookings := assignStatus cs.bookings bookingId st
            facilities := { cs.facilities with availableCapacity := available } }
        (saved, Reply.ok "Booking status updated successfully" { booking with status := st })

/-! ## Predicates of the specification -/

/-- Sum of the quantities of the bookings whose status is pending, confirmed
or active. -/
def reservedQuantity (bs : List Booking) : Int :=
  ((bs.filter (fun b => !b.status.isTerminal)).map (fun b => b.quantity)).sum

/-- The capacity equation of the data model:
`availableCapacity = totalCapacity − reserved quantity`. -/
def CapacityEquation (cs : Facility) : Prop :=
  cs.facilities.availableCapacity = cs.facilities.totalCapacity - reservedQuantity cs.bookings

/-- The capacity bounds of the data model: `0 ≤ availableCapacity ≤ totalCapacity`. -/
def CapacityBounds (cs : Facility) : Prop :=
  0 ≤ cs.facilities.availableCapacity ∧
    cs.facilities.availableCapacity ≤ cs.facilities.totalCapacity

instance (cs : Facility) : Decidable (CapacityEquation cs) := by
  unfold CapacityEquation; infer_instance

instance (cs : Facility) : Decidable (CapacityBounds cs) := by
  unfold CapacityBounds; infer_instance

/-- A sample facility: capacity 100, 40 free, one pending booking of 60. -/
def sampleFacility : Facility :=
  { _id := 1, owner := 7, name := "Kisan Cold Store", location := "Nashik",
    facilities := { totalCapacity := 100, availableCapacity := 40 },
    pricing := { baseRate := 0, perTonPerDay := 2, minimumPeriod := 1 },
    bookings :=
      [{ _id := 11, user := 3, crop := "onion", quantity := 60,
         startDate := 0, endDate := 432000000, status := Status.pending }],
    isActive := true }

/-- A facility with all 100 units free whose only booking (60 units) is
already cancelled. -/
def closedFacility : Facility :=
  { sampleFacility with
    facilities := { totalCapacity := 100, availableCapacity := 100 }
    bookings :=
      [{ _id := 11, user := 3, crop := "onion", quantity := 60,
         startDate := 0, endDate := 432000000, status := Status.cancelled }] }

/-- A facility with all 100 units free and no booking. -/
def emptyFacility : Facility :=
  { sampleFacility with
    facilities := { totalCapacity := 100, availableCapacity := 100 }
    bookings := [] }

/-- A sample request: 10 units for two and a half days. -/
def sampleRequest : BookRequest :=
  { crop := "potato", quantity := 10, startDate := 0, endDate := 216000000,
    specialInstructions := "" }

/-- The body of a successful reply, if any. -/
def Reply.body? {α : Type} : Reply α → Option α
  | Reply.ok _ body => some body
  | Reply.error _ _ => none

/-- One request handled on a facility whose named booking, if it exists, is
not in a terminal status: any booking request, or a status transition on a
booking that is pending, confirmed or active (or on no booking at all). -/
inductive LedgerStep : Facility → Facility → Prop where
  | book (cs : Facility) (user newId : Nat) (req : BookRequest) :
      LedgerStep cs (createBooking cs user newId req).1
  | transition (cs : Facility) (actor bookingId : Nat) (status : String)
      (hlive : ∀ b, findBooking cs.bookings bookingId = some b → b.status.isTerminal = false) :
      LedgerStep cs (transitionBookingStatus cs actor bookingId status).1

/-! ## Read-only booking routes -/

/-- One document of the result of `GET /user/bookings`: the projection
`{ name: 1, location: 1, bookings: { $elemMatch: ... } }` keeps `_id`, `name`,
`location` and the projected `bookings` array, and no other path. -/
structure UserBookingsEntry where
  _id : Nat
  name : String
  location : String
  bookings : List Booking
  deriving DecidableEq, Repr

/-- MongoDB projection `bookings: { $elemMatch: { user: uid } }` (lines
203-205): the array limited to its first element that matches the
condition. -/
def elemMatchUser (bs : List Booking) (uid : Nat) : List Booking :=
  match bs.find? (fun b => b.user == uid) with
  | some b => [b]
  | none => []

/-- Query filter `{ 'bookings.user': uid }` (lines 198-200): the documents
with at least one booking of that user. -/
def hasBookingOf (cs : Facility) (uid : Nat) : Bool :=
  cs.bookings.any (fun b => b.user == uid)

/-- Handler of `router.get('/user/bookings')`, lines 198-208, over the
collection `db` for the authenticated user `uid`: the matching documents in
collection order, each under the projection. -/
def listBookingsForUser (db : List Facility) (uid : Nat) : List UserBookingsEntry :=
  (db.filter (fun cs => hasBookingOf cs uid)).map
    (fun cs =>
      { _id := cs._id, name := cs.name, location := cs.location,
        bookings := elemMatchUser cs.bookings uid })

/-- Handler of `router.get('/:id/bookings')`, lines 261-265, for the document
`cs` found by `findById` and the authenticated user `requester`: the error
status and message, or the `bookings` array sent by `res.json`. -/
def listBookingsForOwner (cs : Facility) (requester : Nat) :
    Except (Nat × String) (List Booking) :=
  if cs.owner ≠ requester then Except.error (403, "Not authorized")
  else Except.ok cs.bookings

/-- The string of each member of the schema enum of `bookings.status`. -/
def Status.label : Status → String
  | Status.pending => "pending"
  | Status.confirmed => "confirmed"
  | Status.active => "active"
  | Status.completed => "completed"
  | Status.cancelled => "cancelled"

/-- Position of a status in the order pending < confirmed < active < completed
of the state machine; cancelled is outside that order. -/
def Status.rank : Status → Option Nat
  | Status.pending => some 0
  | Status.confirmed => some 1
  | Status.active => some 2
  | Status.completed => some 3
  | Status.cancelled => none

/-- A monotonic move of the state machine: to a status that is not earlier
than the current one, or from pending, confirmed or active to cancelled. -/
def MonotonicMove (old new : Status) : Prop :=
  (∃ i j, old.rank = some i ∧ new.rank = some j ∧ i ≤ j) ∨
    (old.isTerminal = false ∧ new = Status.cancelled)

/-- Two facilities that look the same to user `uid` through
`GET /user/bookings`: same `_id`, `name` and `location`, and the same bookings
of `uid` in the same order. Everything else may differ. -/
def SameViewFor (uid : Nat) (a b : Facility) : Prop :=
  a._id = b._id ∧ a.name = b.name ∧ a.location = b.location ∧
    a.bookings.filter (fun x => x.user == uid) = b.bookings.filter (fun x => x.user == uid)

/-- What a status transition on booking `bookingId` of the list `bs` may do to
one booking: every path but `status` is kept, and the status differs only for
the booking the request names. -/
def StatusFrame (bs : List Booking) (bookingId : Nat) (old new : Booking) : Prop :=
  new = { old with status := new.status } ∧
    (new.status ≠ old.status → findBooking bs bookingId = some old)

/-- A facility where user 3 holds two bookings and user 4 one. -/
def busyFacility : Facility :=
  { sampleFacility with
    facilities := { totalCapacity := 100, availableCapacity := 50 }
    bookings :=
      [{ _id := 11, user := 3, crop := "onion", quantity := 20,
         startDate := 0, endDate := 432000000, status := Status.pending },
       { _id := 12, user := 4, crop := "grape", quantity := 20,
         startDate := 0, endDate := 432000000, status := Status.confirmed },
       { _id := 13, user := 3, crop := "potato", quantity := 10,
         startDate := 0, endDate := 86400000, status := Status.active }] }

end ColdStorage

/-- What a handler of the invoice and marketplace routers sends:
`res.status(status).json({ message, ... })` with the document in the body, if
any (`res.json` without `res.status` is 200). -/
structure HttpReply (α : Type) where
  status : Nat
  message : String
  payload : Option α
  deriving DecidableEq, Repr

/-! # JavaScript numbers and request values

A finite JavaScript number is an IEEE 754 binary64 value. It is represented
here by the rational number it denotes, and every arithmetic operation rounds
its exact result to the nearest binary64 value, ties to even (`fl`),
subnormal values included. Infinity, NaN and the sign of zero are not
represented, so results beyond the binary64 range (about 1.8e308) are outside
the model. -/

namespace JsNumber

/-- Number of binary digits of `n` (0 for 0); `fuel` bounds the recursion and
any `fuel ≥ n` is enough. -/
def bitLength : Nat → Nat → Nat
  | 0, _ => 0
  | fuel + 1, n => if n = 0 then 0 else bitLength fuel (n / 2) + 1

/-- The integer `e` with `2^e ≤ n/d < 2^(e+1)`, for positive `n` and `d`. -/
def floorLog2 (n d : Nat) : Int :=
  let e : Int := (bitLength n n : Int) - (bitLength d d : Int)
  if d * 2 ^ e.toNat ≤ n * 2 ^ (-e).toNat then e else e - 1

/-- The integer nearest to `n/d`, a tie going to the even neighbour. -/
def roundHalfEven (n d : Nat) : Nat :=
  let q := n / d
  let r := n % d
  if 2 * r < d then q
  else if d < 2 * r then q + 1
  else if q % 2 = 0 then q else q + 1

/-- The binary64 value nearest to `x`, ties to even: 53 significant bits, the
unit in the last place never below `2^(-1074)`. It is also the value that
`JSON.parse` gives the decimal literal `x`. -/
def fl (x : ℚ) : ℚ :=
  if x = 0 then 0
  else
    let n := x.num.natAbs
    let d := x.den
    let q : Int := max (floorLog2 n d - 52) (-1074)
    let m := roundHalfEven (n * 2 ^ (-q).toNat) (d * 2 ^ q.toNat)
    let v : ℚ := mkRat ((m * 2 ^ q.toNat : Nat) : Int) (2 ^ (-q).toNat)
    if x < 0 then -v else v

/-- JavaScript `a + b` on numbers. -/
def add (a b : ℚ) : ℚ := fl (a + b)

/-- JavaScript `a - b` on numbers. -/
def sub (a b : ℚ) : ℚ := fl (a - b)

/-- JavaScript `a * b` on numbers. -/
def mul (a b : ℚ) : ℚ := fl (a * b)

/-- JavaScript `a / b` on numbers, for `b ≠ 0`. -/
def div (a b : ℚ) : ℚ := fl (a / b)

/-- JavaScript `Math.round` on a finite number: the nearest integer, a tie
going up. -/
def mathRound (x : ℚ) : Int := ⌊x + 1 / 2⌋

/-- A numeric key of a request body: missing, a JSON number (given by its
decimal literal), or a string (every value of an urlencoded body is one). -/
inductive BodyValue where
  | absent
  | number (literal : ℚ)
  | text (s : String)
  deriving DecidableEq, Repr

/-- The value of a run of decimal digits, `none` when another character
occurs. -/
def digitsValue : List Char → Nat → Option Nat
  | [], acc => some acc
  | c :: cs, acc =>
    if c.isDigit then digitsValue cs (acc * 10 + (c.toNat - 48)) else none

/-- The integer written by a string of the form `digits` or `-digits`. -/
def parseInteger (s : String) : Option Int :=
  match s.data with
  | [] => none
  | '-' :: cs => if cs = [] then none else (digitsValue cs 0).map (fun n => -(n : Int))
  | cs => (digitsValue cs 0).map (fun n => (n : Int))

/-- Conversion of a string to a number (`Number(s)`, as in the mongoose cast of
a string to a `Number` path), for strings of decimal digits with an optional
minus sign; other strings are outside the model (`none`). -/
def stringToNumber? (s : String) : Option ℚ :=
  (parseInteger s).map (fun n => fl (n : ℚ))

/-- Conversion of a number to a string (`String(x)`, as in `x + "..."`), for
whole numbers below `10^21` in size, which JavaScript writes as plain decimal
digits; other numbers are outside the model (`none`). -/
def numberToString? (x : ℚ) : Option String :=
  if x.den = 1 ∧ x.num.natAbs < 10 ^ 21 then some (toString x.num) else none

/-- The number a body value denotes in arithmetic (`ToNumber`): the parsed
literal, or the number a digit string converts to; a missing value (NaN) and
other strings are outside the model (`none`). -/
def BodyValue.toNumber? : BodyValue → Option ℚ
  | BodyValue.absent => none
  | BodyValue.number literal => some (fl literal)
  | BodyValue.text s => stringToNumber? s

/-- JavaScript `v + x` for a raw body value `v` and a number `x`: addition for
a number, concatenation `v + String(x)` for a string, the result being
converted to a number when it is stored in a `Number` path. -/
def plusLeft (v : BodyValue) (x : ℚ) : Option ℚ :=
  match v with
  | BodyValue.absent => none
  | BodyValue.number literal => some (add (fl literal) x)
  | BodyValue.text s => (numberToString? x).bind (fun t => stringToNumber? (s ++ t))

/-- JavaScript `x + v` for a number `x` and a raw body value `v`: addition for
a number, concatenation `String(x) + v` for a string, the result being
converted to a number when it is stored in a `Number` path. -/
def plusRight (x : ℚ) (v : BodyValue) : Option ℚ :=
  match v with
  | BodyValue.absent => none
  | BodyValue.number literal => some (add x (fl literal))
  | BodyValue.text s => (numberToString? x).bind (fun t => stringToNumber? (t ++ s))

/-- The factor by which one rounding step may change a number in the normal
range (a generous one: twice the unit roundoff). -/
def stepFactor : ℚ := 1 + 1 / 2 ^ 51

/-- The number `y` is within `k` rounding steps of the positive number `x`. -/
def Near (k : Nat) (y x : ℚ) : Prop :=
  0 < x ∧ 0 < y ∧ x ≤ y * stepFactor ^ k ∧ y ≤ x * stepFactor ^ k

end JsNumber

/-! # Invoices (backend/routes/invoices.js)

Numbers are JavaScript numbers (see `JsNumber`); the numbers of a request body
are given by their decimal literals and parsed by `JsNumber.fl`. -/

namespace Invoices

/-- One element of `invoiceSchema.items`. -/
structure Item where
  product : Option Nat
  name : String
  quantity : ℚ
  unit : String
  price : ℚ
  total : ℚ
  deriving DecidableEq, Repr

/-- An `Invoice` document (the paths the create and update handlers set). -/
structure Invoice where
  _id : Nat
  invoiceNumber : String
  seller : Nat
  buyer : Nat
  items : List Item
  subtotal : ℚ
  tax : ℚ
  discount : ℚ
  total : ℚ
  status : String
  dueDate : Option Int
  notes : Option String
  createdAt : Int
  updatedAt : Int
  deriving DecidableEq, Repr

/-- Body of `POST /` after destructuring; an absent key is `none`. -/
structure CreateBody where
  buyerId : Option Nat
  items : Option (List Item)
  dueDate : Option Int
  notes : Option String
  deriving DecidableEq, Repr

/-- Body of `PUT /:id` (`updates`): any of the document paths, absent keys
being `none`. -/
structure UpdateBody where
  invoiceNumber : Option String
  seller : Option Nat
  buyer : Option Nat
  items : Option (List Item)
  subtotal : Option ℚ
  tax : Option ℚ
  discount : Option ℚ
  total : Option ℚ
  status : Option String
  dueDate : Option Int
  notes : Option String
  createdAt : Option Int
  deriving DecidableEq, Repr

/-- The numeric keys of one item of a request body, parsed to numbers. -/
def parseItem (item : Item) : Item :=
  { item with
    quantity := JsNumber.fl item.quantity
    price := JsNumber.fl item.price
    total := JsNumber.fl item.total }

/-- The loop of lines 72-75 and 130-133: `items.forEach(item => { item.total =
item.quantity * item.price; subtotal += item.total })`, starting from
`subtotal = 0`; returns the items as mutated and the final `subtotal`. -/
def recalculate (items : List Item) : List Item × ℚ :=
  items.foldl
    (fun (acc : List Item × ℚ) (item : Item) =>
      let item' : Item := { item with total := JsNumber.mul item.quantity item.price }
      (acc.1 ++ [item'], JsNumber.add acc.2 item'.total))
    ([], 0)

/-- The literal `0.18` of lines 77 and 135, as a number. -/
def gstRate : ℚ := JsNumber.fl (18 / 100)

/-- Handler of `router.post('/')`, lines 68-102, for the authenticated user
`user`, the clock value `now` of `Date.now()` and the id `newId` of the new
document. A body without `items` throws at `items.forEach`, a body without
`buyerId` fails the `required` validator of `buyer` at `save()`; both end in
the `catch` with a 500. -/
def createInvoice (user newId : Nat) (now : Int) (body : CreateBody) : HttpReply Invoice :=
  match body.items with
  | none => { status := 500, message := "Server error", payload := none }
  | some items =>
    let r := recalculate (items.map parseItem)
    let subtotal := r.2
    let tax := JsNumber.mul subtotal gstRate
    let total := JsNumber.add subtotal tax
    match body.buyerId with
    | none => { status := 500, message := "Server error", payload := none }
    | some buyer =>
      { status := 201, message := "Invoice created successfully",
        payload := some
          { _id := newId, invoiceNumber := "INV" ++ toString now, seller := user,
            buyer := buyer, items := r.1, subtotal := subtotal, tax := tax, discount := 0,
            total := total, status := "draft", dueDate := body.dueDate,
            notes := body.notes, createdAt := now, updatedAt := now } }

/-- The numeric keys of the body of `PUT /:id`, parsed to numbers. -/
def parseUpdates (updates : UpdateBody) : UpdateBody :=
  { updates with
    items := updates.items.map (fun items => items.map parseItem)
    subtotal := updates.subtotal.map JsNumber.fl
    tax := updates.tax.map JsNumber.fl
    discount := updates.discount.map JsNumber.fl
    total := updates.total.map JsNumber.fl }

/-- Lines 127-137: when `updates.items` is present, the totals are recomputed
and written into `updates`. -/
def recalculateUpdates (updates : UpdateBody) : UpdateBody :=
  match updates.items with
  | none => updates
  | some items =>
    let r := recalculate items
    let subtotal := r.2
    let tax := JsNumber.mul subtotal gstRate
    { updates with
      items := some r.1
      subtotal := some subtotal
      tax := some tax
      total := some (JsNumber.add subtotal tax) }

/-- `Invoice.findByIdAndUpdate(id, { ...updates, updatedAt: new Date() })`:
every path present in `updates` replaces the stored one. -/
def applyUpdates (invoice : Invoice) (updates : UpdateBody) (now : Int) : Invoice :=
  { _id := invoice._id
    invoiceNumber := updates.invoiceNumber.getD invoice.invoiceNumber
    seller := updates.seller.getD invoice.seller
    buyer := updates.buyer.getD invoice.buyer
    items := updates.items.getD invoice.items
    subtotal := updates.subtotal.getD invoice.subtotal
    tax := updates.tax.getD invoice.tax
    discount := updates.discount.getD invoice.discount
    total := updates.total.getD invoice.total
    status := updates.status.getD invoice.status
    dueDate := match updates.dueDate with
      | some d => some d
      | none => invoice.dueDate
    notes := match updates.notes with
      | some n => some n
      | none => invoice.notes
    createdAt := updates.createdAt.getD invoice.createdAt
    updatedAt := now }

/-- Handler of `router.put('/:id')`, lines 117-148, for the document `invoice`
found by `findById`, the authenticated user `user`, the clock value `now` and
the request body `updates`; returns the document as stored afterwards and the
reply. -/
def updateInvoice (invoice : Invoice) (user : Nat) (now : Int) (updates : UpdateBody) :
    Invoice × HttpReply Invoice :=
  if invoice.seller ≠ user then
    (invoice, { status := 403, message := "Not authorized", payload := none })
  else if invoice.status = "paid" then
    (invoice, { status := 400, message := "Cannot update paid invoice", payload := none })
  else
    let updated := applyUpdates invoice (recalculateUpdates (parseUpdates updates)) now
    (updated, { status := 200, message := "Invoice updated successfully",
                payload := some updated })

/-- A draft invoice of seller 5 with no items. -/
def draftInvoice : Invoice :=
  { _id := 1, invoiceNumber := "INV1", seller := 5, buyer := 6, items := [],
    subtotal := 0, tax := 0, discount := 0, total := 0, status := "draft",
    dueDate := none, notes := none, createdAt := 0, updatedAt := 0 }

/-- An update body that carries only `items`. -/
def itemsOnly (items : List Item) : UpdateBody :=
  { invoiceNumber := none, seller := none, buyer := none, items := some items,
    subtotal := none, tax := none, discount := none, total := none, status := none,
    dueDate := none, notes := none, createdAt := none }

/-- Two sample items: 3 units at 50 and 2 units at 25, totals not yet set. -/
def sampleItems : List Item :=
  [{ product := none, name := "wheat", quantity := 3, unit := "kg", price := 50, total := 0 },
   { product := none, name := "rice", quantity := 2, unit := "kg", price := 25, total := 0 }]

/-- One item: 1 unit at price 10, total not yet set. -/
def oneItem : List Item :=
  [{ product := none, name := "wheat", quantity := 1, unit := "kg", price := 10, total := 0 }]

/-- A request body for an invoice to buyer 6 with the given items. -/
def invoiceFor (items : List Item) : CreateBody :=
  { buyerId := some 6, items := some items, dueDate := none, notes := none }

end Invoices

/-! # Marketplace bids (backend/routes/marketplace.js) -/

namespace Marketplace

/-- One element of `productSchema.bids`; `amount` is `none` for a bid stored
without the `amount` path. -/
structure Bid where
  bidder : Nat
  amount : Option Int
  date : Int
  deriving DecidableEq, Repr

/-- A `Product` document (the paths the bid handler reads or writes). -/
structure Product where
  _id : Nat
  seller : Nat
  name : String
  price : Int
  bids : List Bid
  deriving DecidableEq, Repr

/-- JavaScript `amount <= price` for the `amount` of the request body, `none`
when the body has none: `undefined <= price` is false. -/
def amountAtMost (amount : Option Int) (price : Int) : Bool :=
  match amount with
  | none => false
  | some a => decide (a ≤ price)

/-- Lines 172-178: `existingBid = product.bids.find(bid => bid.bidder === user)`
followed by `existingBid.amount = amount; existingBid.date = new Date()`: the
first bid of that bidder gets the new amount and date. -/
def replaceBid (bids : List Bid) (user : Nat) (amount : Option Int) (now : Int) :
    List Bid :=
  match bids with
  | [] => []
  | b :: rest =>
    if b.bidder == user then { b with amount := amount, date := now } :: rest
    else b :: replaceBid rest user amount now

/-- Handler of `router.post('/products/:id/bid')`, lines 163-193, for the
document `product` found by `findById`, the authenticated user `user`, the
`amount` of the request body (`none` when the body has none) and the clock
value `now`. -/
def placeBid (product : Product) (user : Nat) (amount : Option Int) (now : Int) :
    Product × HttpReply Product :=
  if product.seller = user then
    (product, { status := 400, message := "Cannot bid on your own product", payload := none })
  else if amountAtMost amount product.price then
    (product,
      { status := 400, message := "Bid must be higher than current price", payload := none })
  else
    let bids :=
      match product.bids.find? (fun bid => bid.bidder == user) with
      | some _ => replaceBid product.bids user amount now
      | none => product.bids ++ [{ bidder := user, amount := amount, date := now }]
    let saved : Product := { product with bids := bids }
    (saved, { status := 200, message := "Bid placed successfully", payload := some saved })

/-- At most one bid per bidder. -/
def OneBidPerBidder (bids : List Bid) : Prop :=
  (bids.map (fun b => b.bidder)).Nodup

/-- A product of seller 1 priced 100 with bids of users 2 and 3. -/
def sampleProduct : Product :=
  { _id := 1, seller := 1, name := "tomato", price := 100,
    bids := [{ bidder := 2, amount := some 110, date := 10 },
             { bidder := 3, amount := some 120, date := 20 }] }

end Marketplace

/-! # Loans (backend/routes/loans.js)

Numbers are JavaScript numbers (see `JsNumber`). -/

namespace Loans

/-- One element of `loanSchema.payments`. -/
structure Payment where
  amount : ℚ
  date : Int
  status : String
  deriving DecidableEq, Repr

/-- A `Loan` document (the paths the apply and payment handlers set or read). -/
structure Loan where
  _id : Nat
  applicant : Nat
  amount : ℚ
  purpose : String
  duration : ℚ
  interestRate : ℚ
  emi : ℚ
  totalAmount : ℚ
  status : String
  payments : List Payment
  deriving DecidableEq, Repr

/-- Body of `POST /apply` and `POST /eligibility` after destructuring: the raw
`amount` and `duration`, and `purpose` (`none` when absent). -/
structure ApplyBody where
  amount : JsNumber.BodyValue
  purpose : Option String
  duration : JsNumber.BodyValue
  deriving DecidableEq, Repr

/-- The paths of the reply of `POST /eligibility` that depend on nothing or on
the request (the constant `factors` and `requirements` lists are left out). -/
structure Eligibility where
  eligible : Bool
  maxAmount : ℚ
  interestRate : ℚ
  emi : ℚ
  deriving DecidableEq, Repr

/-- The body of the success reply of `POST /:id/payment`. -/
structure PaymentReceipt where
  payment : Payment
  remainingAmount : ℚ
  deriving DecidableEq, Repr

/-- The quotient of lines 20 and 47 before rounding:
`(amount * (1 + (rate/100) * (duration/12))) / duration`. -/
def emiQuotient (amount rate duration : ℚ) : ℚ :=
  JsNumber.div
    (JsNumber.mul amount
      (JsNumber.add 1 (JsNumber.mul (JsNumber.div rate 100) (JsNumber.div duration 12))))
    duration

/-- Lines 20 and 47:
`Math.round((amount * (1 + (rate/100) * (duration/12))) / duration)`. -/
def emiOf (amount rate duration : ℚ) : Int :=
  JsNumber.mathRound (emiQuotient amount rate duration)

/-- The second summand of line 48: `amount * interestRate/100 * duration/12`. -/
def interestOf (amount rate duration : ℚ) : ℚ :=
  JsNumber.div (JsNumber.mul (JsNumber.div (JsNumber.mul amount rate) 100) duration) 12

/-- Handler of `router.post('/eligibility')`, lines 16-35. A request whose
`amount` or `duration` does not convert to a number in the model, or whose
`duration` is 0 (the quotient of line 20 is then not a finite number), is
outside the model and gives `none`. -/
def eligibility (body : ApplyBody) : Option Eligibility :=
  match body.amount.toNumber?, body.duration.toNumber? with
  | some amount, some duration =>
    if duration = 0 then none
    else
      some
        { eligible := true, maxAmount := 500000, interestRate := 8.5,
          emi := emiOf amount 8.5 duration }
  | _, _ => none

/-- Handler of `router.post('/apply')`, lines 44-67, for the authenticated user
`user` and the id `newId` of the new document. Line 48 adds to the raw
`amount`, so a string amount is concatenated with the interest. A body without
`purpose` (or with an empty one) fails the `required` validator at `save()`
and ends in the `catch` with a 500. A request whose `amount` or `duration`
does not convert to a number in the model, or whose `duration` is 0 (the
quotient of line 47 is then not a finite number), is outside the model and
gives `none`. -/
def applyLoan (user newId : Nat) (body : ApplyBody) : Option (HttpReply Loan) :=
  match body.amount.toNumber?, body.duration.toNumber? with
  | some amount, some duration =>
    if duration = 0 then none
    else
      let interestRate : ℚ := 8.5
      let emi := emiOf amount interestRate duration
      match JsNumber.plusLeft body.amount (interestOf amount interestRate duration) with
      | none => none
      | some totalAmount =>
        match body.purpose with
        | none => some { status := 500, message := "Server error", payload := none }
        | some purpose =>
          if purpose = "" then
            some { status := 500, message := "Server error", payload := none }
          else
            some
              { status := 201, message := "Loan application submitted successfully",
                payload := some
                  { _id := newId, applicant := user, amount := amount, purpose := purpose,
                    duration := duration, interestRate := interestRate, emi := emi,
                    totalAmount := totalAmount, status := "applied", payments := [] } }
  | _, _ => none

/-- Line 162: `loan.payments.reduce((sum, payment) => sum + payment.amount, 0)`. -/
def totalPaid (payments : List Payment) : ℚ :=
  payments.foldl (fun sum payment => JsNumber.add sum payment.amount) 0

/-- Handler of `router.post('/:id/payment')`, lines 146-173, for the document
`loan` found by `findById`, the authenticated user `user`, the request's
`amount` (a JSON number, given by its decimal literal) and the clock value
`now`; returns the document as stored afterwards and the reply. -/
def makePayment (loan : Loan) (user : Nat) (amount : ℚ) (now : Int) :
    Loan × HttpReply PaymentReceipt :=
  if loan.applicant ≠ user then
    (loan, { status := 403, message := "Not authorized", payload := none })
  else if loan.status ≠ "disbursed" then
    (loan, { status := 400, message := "Loan not yet disbursed", payload := none })
  else
    let payment : Payment := { amount := JsNumber.fl amount, date := now, status := "paid" }
    let payments := loan.payments ++ [payment]
    let paid := totalPaid payments
    let saved : Loan :=
      { loan with
        payments := payments
        status := if paid ≥ loan.totalAmount then "repaid" else loan.status }
    (saved,
      { status := 200, message := "Payment processed successfully",
        payload := some
          { payment := payment, remainingAmount := JsNumber.sub loan.totalAmount paid } })

/-- A disbursed loan of applicant 4 with total 1000 and one payment of 400. -/
def disbursedLoan : Loan :=
  { _id := 1, applicant := 4, amount := 900, purpose := "seeds", duration := 12,
    interestRate := 8.5, emi := 83, totalAmount := 1000, status := "disbursed",
    payments := [{ amount := 400, date := 10, status := "paid" }] }

/-- A disbursed loan of applicant 4 with total 1 on which nine payments of 0.1
(the number nearest to 1/10) have been made. -/
def tenthsLoan : Loan :=
  { _id := 2, applicant := 4, amount := 1, purpose := "seeds", duration := 1,
    interestRate := 8.5, emi := 1, totalAmount := 1, status := "disbursed",
    payments :=
      List.replicate 9 { amount := JsNumber.fl (1 / 10), date := 10, status := "paid" } }

/-- An application for 6800 over 24 months. -/
def tieApplication : ApplyBody :=
  { amount := JsNumber.BodyValue.number 6800, purpose := some "seeds",
    duration := JsNumber.BodyValue.number 24 }

/-- An application for 12700094.027954256 over 44 months. -/
def driftApplication : ApplyBody :=
  { amount := JsNumber.BodyValue.number (12700094027954256 / 10 ^ 9),
    purpose := some "seeds", duration := JsNumber.BodyValue.number 44 }

end Loans

/-! # Farmer producer organisations (backend/routes/fpo.js) -/

namespace FPO

/-- One element of `fpoSchema.members`. -/
structure Member where
  user : Nat
  role : String
  joinedAt : Int
  deriving DecidableEq, Repr

/-- The `finances` sub-object of the schema. -/
structure Finances where
  totalRevenue : ℚ
  totalExpenses : ℚ
  profit : ℚ
  deriving DecidableEq, Repr

/-- An `FPO` document (the paths the join, leave and finances handlers read or
write). -/
structure Org where
  _id : Nat
  name : String
  founder : Nat
  members : List Member
  finances : Finances
  deriving DecidableEq, Repr

/-- Handler of `router.post('/:id/join')`, lines 127-148, for the document
`fpo` found by `findById`, the authenticated user `user` and the clock value
`now`. -/
def join (fpo : Org) (user : Nat) (now : Int) : Org × HttpReply Org :=
  if fpo.members.any (fun member => member.user == user) then
    (fpo, { status := 400, message := "Already a member of this FPO", payload := none })
  else
    let saved : Org :=
      { fpo with members := fpo.members ++ [{ user := user, role := "member", joinedAt := now }] }
    (saved, { status := 200, message := "Successfully joined FPO", payload := some saved })

/-- Handler of `router.post('/:id/leave')`, lines 163-179, for the document
`fpo` found by `findById` and the authenticated user `user`; `findIdx?` giving
`none` is `findIndex` giving `-1`, and `eraseIdx` is `splice(memberIndex, 1)`. -/
def leave (fpo : Org) (user : Nat) : Org × HttpReply Unit :=
  match fpo.members.findIdx? (fun member => member.user == user) with
  | none => (fpo, { status := 400, message := "Not a member of this FPO", payload := none })
  | some memberIndex =>
    if fpo.founder = user then
      (fpo, { status := 400, message := "Founder cannot leave the FPO", payload := none })
    else
      ({ fpo with members := fpo.members.eraseIdx memberIndex },
        { status := 200, message := "Successfully left FPO", payload := none })

/-- JavaScript `v || 0` for a raw body value: 0 for a missing value, for the
number 0 and for the empty string, the value itself otherwise. -/
def orZero (v : JsNumber.BodyValue) : JsNumber.BodyValue :=
  match v with
  | JsNumber.BodyValue.absent => JsNumber.BodyValue.number 0
  | JsNumber.BodyValue.number literal =>
    if JsNumber.fl literal = 0 then JsNumber.BodyValue.number 0
    else JsNumber.BodyValue.number literal
  | JsNumber.BodyValue.text s =>
    if s = "" then JsNumber.BodyValue.number 0 else JsNumber.BodyValue.text s

/-- Handler of `router.put('/:id/finances')`, lines 251-277, for the document
`fpo` found by `findById`, the authenticated user `user` and the raw `revenue`
and `expenses` of the request body. Lines 268-269 apply `+=` to the raw value,
so a string is concatenated to the old total. A string whose concatenation
does not convert to a number in the model is outside the model and gives
`none`. -/
def updateFinances (fpo : Org) (user : Nat) (revenue expenses : JsNumber.BodyValue) :
    Option (Org × HttpReply Finances) :=
  if fpo.members.any (fun member => member.user == user && member.role == "admin") then
    match JsNumber.plusRight fpo.finances.totalRevenue (orZero revenue),
        JsNumber.plusRight fpo.finances.totalExpenses (orZero expenses) with
    | some totalRevenue, some totalExpenses =>
      let finances : Finances :=
        { totalRevenue := totalRevenue, totalExpenses := totalExpenses,
          profit := JsNumber.sub totalRevenue totalExpenses }
      some ({ fpo with finances := finances },
        { status := 200, message := "Finances updated successfully",
          payload := some finances })
    | _, _ => none
  else
    some (fpo, { status := 403, message := "Not authorized", payload := none })

/-- The number by which a request value that is missing or a JSON number is to
raise a total: 0 for a missing value, the parsed number otherwise. -/
def addend : JsNumber.BodyValue → ℚ
  | JsNumber.BodyValue.number literal => JsNumber.fl literal
  | _ => 0

/-- The request value is missing or a JSON number (not a string). -/
def NotText (v : JsNumber.BodyValue) : Prop :=
  ∀ s, v ≠ JsNumber.BodyValue.text s

/-- No user is in the member list twice. -/
def NoDuplicateMembers (fpo : Org) : Prop :=
  (fpo.members.map (fun m => m.user)).Nodup

/-- The founder is in the member list. -/
def FounderIsMember (fpo : Org) : Prop :=
  fpo.founder ∈ fpo.members.map (fun m => m.user)

/-- One join or leave request, by any user at any time. -/
inductive MembershipStep : Org → Org → Prop where
  | join (fpo : Org) (user : Nat) (now : Int) : MembershipStep fpo (join fpo user now).1
  | leave (fpo : Org) (user : Nat) : MembershipStep fpo (leave fpo user).1

/-- An organisation as `POST /` creates it (lines 59-67): the founder is its
only member, with role admin; here with a second member 8. -/
def sampleOrg : Org :=
  { _id := 1, name := "Sahyadri Farmers", founder := 5,
    members := [{ user := 5, role := "admin", joinedAt := 0 },
                { user := 8, role := "member", joinedAt := 3 }],
    finances := { totalRevenue := 100, totalExpenses := 30, profit := 70 } }

/-- The sample organisation with totalRevenue 0.1 (the number nearest to
1/10), no expenses and profit 0.1. -/
def fractionOrg : Org :=
  { sampleOrg with
    finances :=
      { totalRevenue := JsNumber.fl (1 / 10), totalExpenses := 0,
        profit := JsNumber.fl (1 / 10) } }

end FPO

namespace ColdStorage

/-! ## Auxiliary facts -/

theorem ofString_terminal_iff {s : String} {st : Status} (h : Status.ofString s = some st) :
    (s = "cancelled" ∨ s = "completed") ↔ st.isTerminal = true := by
  unfold Status.ofString at h
  split_ifs at h with h1 h2 h3 h4 h5 <;>
    (injection h with h; subst h; subst_vars; decide)

theorem reservedQuantity_nil : reservedQuantity [] = 0 := rfl

theorem reservedQuantity_cons (b : Booking) (bs : List Booking) :
    reservedQuantity (b :: bs) =
      (if b.status.isTerminal then 0 else b.quantity) + reservedQuantity bs := by
  unfold reservedQuantity
  cases hb : b.status.isTerminal <;> simp [List.filter_cons, hb]

theorem reservedQuantity_append (xs ys : List Booking) :
    reservedQuantity (xs ++ ys) = reservedQuantity xs + reservedQuantity ys := by
  unfold reservedQuantity
  simp [List.filter_append, List.map_append, List.sum_append]

theorem reservedQuantity_assignStatus (bs : List Booking) (bookingId : Nat) (st : Status)
    (b : Booking) (hfind : findBooking bs bookingId = some b) :
    reservedQuantity (assignStatus bs bookingId st) =
      reservedQuantity bs - (if b.status.isTerminal then 0 else b.quantity)
        + (if st.isTerminal then 0 else b.quantity) := by
  induction bs with
  | nil => simp [findBooking] at hfind
  | cons x rest ih =>
    unfold findBooking at hfind
    rw [List.find?_cons] at hfind
    unfold assignStatus
    cases hx : (x._id == bookingId) with
    | true =>
      rw [hx] at hfind
      simp only [Option.some.injEq] at hfind
      subst hfind
      simp only [if_true, reservedQuantity_cons]
      ring
    | false =>
      rw [hx] at hfind
      simp only [Bool.false_eq_true, if_false, reservedQuantity_cons]
      rw [ih hfind]
      ring

theorem findBooking_mem {bs : List Booking} {bookingId : Nat} {b : Booking}
    (hfind : findBooking bs bookingId = some b) : b ∈ bs :=
  List.mem_of_find?_eq_some hfind

theorem findBooking_assignStatus (bs : List Booking) (bookingId : Nat) (st : Status) :
    findBooking (assignStatus bs bookingId st) bookingId =
      (findBooking bs bookingId).map (fun b => { b with status := st }) := by
  induction bs with
  | nil => rfl
  | cons x rest ih =>
    unfold assignStatus
    cases hx : (x._id == bookingId) with
    | true =>
      simp only [if_true]
      unfold findBooking
      rw [List.find?_cons, List.find?_cons]
      simp [hx]
    | false =>
      simp only [Bool.false_eq_true, if_false]
      unfold findBooking at ih ⊢
      rw [List.find?_cons, List.find?_cons]
      simp only [hx]
      exact ih

theorem quantity_le_reserved {bs : List Booking} {b : Booking} (hmem : b ∈ bs)
    (hlive : b.status.isTerminal = false)
    (hnonneg : ∀ x ∈ bs, x.status.isTerminal = false → 0 ≤ x.quantity) :
    b.quantity ≤ reservedQuantity bs ∧ 0 ≤ reservedQuantity bs := by
  induction bs with
  | nil => cases hmem
  | cons x rest ih =>
    have hrest : 0 ≤ reservedQuantity rest := by
      clear ih hmem
      induction rest with
      | nil => simp [reservedQuantity_nil]
      | cons y ys ihy =>
        rw [reservedQuantity_cons]
        have h1 := ihy (fun z hz => hnonneg z (by
          rcases List.mem_cons.mp hz with h | h
          · exact List.mem_cons.mpr (Or.inl h)
          · exact List.mem_cons.mpr (Or.inr (List.mem_cons_of_mem _ h))))
        have h2 := hnonneg y (List.mem_cons_of_mem _ (List.mem_cons_self _ _))
        cases hy : y.status.isTerminal
        · have := h2 hy
          simp only [Bool.false_eq_true, if_false]
          omega
        · simp only [if_true]
          omega
    rw [reservedQuantity_cons]
    rcases List.mem_cons.mp hmem with h | h
    · subst h
      have hq := hnonneg b (List.mem_cons_self _ _) hlive
      simp only [hlive, Bool.false_eq_true, if_false]
      omega
    · have hx := hnonneg x (List.mem_cons_self _ _)
      have := ih h (fun z hz => hnonneg z (List.mem_cons_of_mem _ hz))
      cases hxs : x.status.isTerminal
      · have := hx hxs
        simp only [Bool.false_eq_true, if_false]
        omega
      · simp only [if_true]
        omega

/-- The transition handler on a request by the owner that names an existing
booking and carries a status string of the enum. -/
theorem transition_accepted (cs : Facility) (bookingId : Nat) (status : String)
    (b : Booking) (st : Status) (hfind : findBooking cs.bookings bookingId = some b)
    (hst : Status.ofString status = some st) :
    transitionBookingStatus cs cs.owner bookingId status =
      ({ cs with
          bookings := assignStatus cs.bookings bookingId st
          facilities :=
            { cs.facilities with
              availableCapacity :=
                if st.isTerminal then cs.facilities.availableCapacity + b.quantity
                else cs.facilities.availableCapacity } },
        Reply.ok "Booking status updated successfully" { b with status := st }) := by
  unfold transitionBookingStatus
  have hiff := ofString_terminal_iff hst
  simp only [ne_eq, not_true_eq_false, if_false, hfind, hst]
  by_cases hterm : st.isTerminal = true
  · simp [hterm, hiff.mpr hterm]
  · have : ¬ (status = "cancelled" ∨ status = "completed") := fun h => hterm (hiff.mp h)
    simp [hterm, this]

/-- Every transition request leaves the document unchanged or is the accepted
owner request of `transition_accepted`. -/
theorem transition_cases (cs : Facility) (actor bookingId : Nat) (status : String) :
    (transitionBookingStatus cs actor bookingId status).1 = cs ∨
      ∃ b st, actor = cs.owner ∧ findBooking cs.bookings bookingId = some b ∧
        Status.ofString status = some st := by
  by_cases hown : cs.owner = actor
  · cases hfind : findBooking cs.bookings bookingId with
    | none => left; simp [transitionBookingStatus, hown, hfind]
    | some b =>
      cases hst : Status.ofString status with
      | none => left; simp [transitionBookingStatus, hown, hfind, hst]
      | some st => right; exact ⟨b, st, hown.symm, rfl, rfl⟩
  · left; simp [transitionBookingStatus, hown]

/-- Accepted booking requests: the stored document and the reply. -/
theorem createBooking_accepted (cs : Facility) (user newId : Nat) (req : BookRequest)
    (h : req.quantity ≤ cs.facilities.availableCapacity) :
    createBooking cs user newId req =
      ({ cs with
          bookings := cs.bookings ++
            [{ _id := newId, user := user, crop := req.crop, quantity := req.quantity,
               startDate := req.startDate, endDate := req.endDate,
               status := Status.pending }]
          facilities :=
            { cs.facilities with
              availableCapacity := cs.facilities.availableCapacity - req.quantity } },
        Reply.ok "Cold storage booking created successfully"
          { user := user, crop := req.crop, quantity := req.quantity,
            startDate := req.startDate, endDate := req.endDate, status := Status.pending,
            cost := bookingCost cs req, facility := cs.name,
            totalCost := bookingCost cs req }) := by
  unfold createBooking
  rw [if_neg (not_lt.mpr h)]

/-- Rejected booking requests: nothing is stored. -/
theorem createBooking_rejected (cs : Facility) (user newId : Nat) (req : BookRequest)
    (h : cs.facilities.availableCapacity < req.quantity) :
    createBooking cs user newId req =
      (cs, Reply.error 400 "Insufficient capacity available") := by
  unfold createBooking
  rw [if_pos h]

theorem createBooking_keeps_equation (cs : Facility) (user newId : Nat) (req : BookRequest)
    (h : CapacityEquation cs) : CapacityEquation (createBooking cs user newId req).1 := by
  rcases lt_or_le cs.facilities.availableCapacity req.quantity with hlt | hle
  · rw [createBooking_rejected cs user newId req hlt]; exact h
  · rw [createBooking_accepted cs user newId req hle]
    unfold CapacityEquation at h ⊢
    simp only [reservedQuantity_append, reservedQuantity_cons, reservedQuantity_nil,
      Status.isTerminal, Bool.false_eq_true, if_false]
    rw [h]; ring

theorem transition_keeps_equation (cs : Facility) (actor bookingId : Nat) (status : String)
    (h : CapacityEquation cs)
    (hlive : ∀ b, findBooking cs.bookings bookingId = some b → b.status.isTerminal = false) :
    CapacityEquation (transitionBookingStatus cs actor bookingId status).1 := by
  rcases transition_cases cs actor bookingId status with hsame | ⟨b, st, hown, hfind, hst⟩
  · rw [hsame]; exact h
  · subst hown
    rw [transition_accepted cs bookingId status b st hfind hst]
    unfold CapacityEquation at h ⊢
    simp only [reservedQuantity_assignStatus cs.bookings bookingId st b hfind, hlive b hfind,
      Bool.false_eq_true, if_false]
    cases st.isTerminal
    · simp only [Bool.false_eq_true, if_false]; rw [h]; ring
    · simp only [if_true]; rw [h]; ring

/-- The integer computation of `bookingDays` is the ceiling of the exact
quotient of the millisecond difference by the milliseconds of a day. -/
theorem bookingDays_eq_ceil (startDate endDate : Int) :
    bookingDays startDate endDate = ⌈((endDate - startDate : Int) : ℚ) / 86400000⌉ := by
  have hfloor := Rat.floor_intCast_div_natCast (-(endDate - startDate)) 86400000
  have hneg : ((-(endDate - startDate) : Int) : ℚ) / ((86400000 : ℕ) : ℚ) =
      -(((endDate - startDate : Int) : ℚ) / 86400000) := by
    push_cast; ring
  rw [hneg, Int.floor_neg] at hfloor
  unfold bookingDays msPerDay
  have hms : (1000 * 60 * 60 * 24 : Int) = ((86400000 : ℕ) : Int) := by norm_num
  rw [hms, ← hfloor, neg_neg]

theorem bookingDays_whole_days (startDate n : Int) :
    bookingDays startDate (startDate + n * msPerDay) = n := by
  unfold bookingDays
  have h : -(startDate + n * msPerDay - startDate) = (-n) * msPerDay := by ring
  rw [h, Int.mul_ediv_cancel _ (by decide : msPerDay ≠ 0), neg_neg]

theorem ofString_label (st : Status) : Status.ofString st.label = some st := by
  cases st <;> decide

theorem find?_filter_self {α : Type} (p : α → Bool) (l : List α) :
    (l.filter p).find? p = l.find? p := by
  induction l with
  | nil => rfl
  | cons x rest ih =>
    cases hx : p x
    · rw [List.filter_cons_of_neg (by simp [hx]), List.find?_cons_of_neg _ (by simp [hx])]
      exact ih
    · rw [List.filter_cons_of_pos hx, List.find?_cons_of_pos _ hx,
        List.find?_cons_of_pos _ hx]

theorem any_filter_self {α : Type} (p : α → Bool) (l : List α) :
    (l.filter p).any p = l.any p := by
  induction l with
  | nil => rfl
  | cons x rest ih =>
    cases hx : p x
    · rw [List.filter_cons_of_neg (by simp [hx]), List.any_cons, hx, Bool.false_or]
      exact ih
    · rw [List.filter_cons_of_pos hx, List.any_cons, List.any_cons, hx, Bool.true_or,
        Bool.true_or]

theorem elemMatchUser_filter (bs : List Booking) (uid : Nat) :
    elemMatchUser (bs.filter (fun x => x.user == uid)) uid = elemMatchUser bs uid := by
  unfold elemMatchUser
  rw [find?_filter_self]

theorem hasBookingOf_filter (cs : Facility) (uid : Nat) :
    (cs.bookings.filter (fun x => x.user == uid)).any (fun x => x.user == uid) =
      hasBookingOf cs uid := by
  unfold hasBookingOf
  rw [any_filter_self]

theorem elemMatchUser_user (bs : List Booking) (uid : Nat) (b : Booking)
    (hb : b ∈ elemMatchUser bs uid) : b.user = uid ∧ b ∈ bs := by
  unfold elemMatchUser at hb
  cases hfind : bs.find? (fun b => b.user == uid) with
  | none => rw [hfind] at hb; cases hb
  | some x =>
    rw [hfind] at hb
    have hbx : b = x := by simpa using hb
    subst hbx
    have h1 := List.find?_some hfind
    exact ⟨by simpa using h1, List.mem_of_find?_eq_some hfind⟩

theorem listBookingsForUser_cons (cs : Facility) (db : List Facility) (uid : Nat) :
    listBookingsForUser (cs :: db) uid =
      (if hasBookingOf cs uid then
        [{ _id := cs._id, name := cs.name, location := cs.location,
           bookings := elemMatchUser cs.bookings uid }]
      else []) ++ listBookingsForUser db uid := by
  unfold listBookingsForUser
  cases h : hasBookingOf cs uid
  · rw [List.filter_cons_of_neg (by simp [h])]; simp
  · rw [List.filter_cons_of_pos (by simp [h])]; simp

theorem sameViewFor_entry {uid : Nat} {a b : Facility} (h : SameViewFor uid a b) :
    hasBookingOf a uid = hasBookingOf b uid ∧
      elemMatchUser a.bookings uid = elemMatchUser b.bookings uid := by
  obtain ⟨_, _, _, hb⟩ := h
  constructor
  · rw [← hasBookingOf_filter a uid, ← hasBookingOf_filter b uid, hb]
  · rw [← elemMatchUser_filter a.bookings uid, ← elemMatchUser_filter b.bookings uid, hb]

theorem statusFrame_refl (bs : List Booking) (bookingId : Nat) (b : Booking) :
    StatusFrame bs bookingId b b :=
  ⟨rfl, fun h => absurd rfl h⟩

theorem assignStatus_frame (bs : List Booking) (bookingId : Nat) (st : Status) :
    List.Forall₂ (StatusFrame bs bookingId) bs (assignStatus bs bookingId st) := by
  induction bs with
  | nil => unfold assignStatus; exact List.Forall₂.nil
  | cons x rest ih =>
    unfold assignStatus
    cases hx : (x._id == bookingId) with
    | true =>
      simp only [if_true]
      refine List.Forall₂.cons ⟨rfl, fun _ => ?_⟩ ?_
      · unfold findBooking
        rw [List.find?_cons]
        simp only [hx]
      · exact List.forall₂_same.mpr (fun b _ => statusFrame_refl _ _ b)
    | false =>
      simp only [Bool.false_eq_true, if_false]
      refine List.Forall₂.cons (statusFrame_refl _ _ x) ?_
      refine List.Forall₂.imp ?_ ih
      intro old new hframe
      refine ⟨hframe.1, fun hne => ?_⟩
      have h := hframe.2 hne
      unfold findBooking at h ⊢
      rw [List.find?_cons]
      simp only [hx]
      exact h

/-! ## The claims -/

/-- C1 (counterexample): the owner moving a cancelled booking back to pending
breaks the capacity equation: availableCapacity stays 100 while the reserved
quantity becomes 60. With fractional quantities the decrement of line 178
alone breaks it: 100 less 0.1 less 0.1 is 99.80000000000001 in the code's
arithmetic, which is not 100 minus the sum of the two quantities. -/
theorem c1_equation_broken_by_reopening :
    CapacityEquation closedFacility ∧
      ¬ CapacityEquation (transitionBookingStatus closedFacility 7 11 "pending").1 ∧
      JsNumber.sub (JsNumber.sub 100 (JsNumber.fl (1 / 10))) (JsNumber.fl (1 / 10)) ≠
        100 - (JsNumber.fl (1 / 10) + JsNumber.fl (1 / 10)) := by
  refine ⟨by decide, by decide, by decide!⟩

/-- C1 (amended): for whole-number capacities and quantities, the capacity
equation is kept by every createBooking request and by every
transitionBookingStatus request (its status a string) that does not name a
booking whose current status is cancelled or completed; hence it holds in
every state reachable through such requests. -/
theorem c1_capacity_equation_preserved (cs : Facility) (h : CapacityEquation cs) :
    (∀ user newId req, CapacityEquation (createBooking cs user newId req).1) ∧
    (∀ actor bookingId status,
      (∀ b, findBooking cs.bookings bookingId = some b → b.status.isTerminal = false) →
        CapacityEquation (transitionBookingStatus cs actor bookingId status).1) ∧
    (∀ cs', Relation.ReflTransGen LedgerStep cs cs' → CapacityEquation cs') := by
  refine ⟨fun user newId req => createBooking_keeps_equation cs user newId req h,
    fun actor bookingId status hlive =>
      transition_keeps_equation cs actor bookingId status h hlive, ?_⟩
  intro cs' hreach
  induction hreach with
  | refl => exact h
  | tail _ hstep ih =>
    cases hstep with
    | book user newId req => exact createBooking_keeps_equation _ user newId req ih
    | transition actor bookingId status hlive =>
      exact transition_keeps_equation _ actor bookingId status ih hlive

/-- C1 (witness): the sample facility satisfies the equation, and so does the
facility after a booking followed by the owner cancelling it. -/
theorem c1_capacity_equation_preserved_witness :
    CapacityEquation sampleFacility ∧
      CapacityEquation
        (transitionBookingStatus (createBooking sampleFacility 3 12 sampleRequest).1
          7 12 "cancelled").1 :=
  ⟨by decide,
    (c1_capacity_equation_preserved sampleFacility (by decide)).2.2 _
      (Relation.ReflTransGen.tail
        (Relation.ReflTransGen.single (LedgerStep.book sampleFacility 3 12 sampleRequest))
        (LedgerStep.transition _ 7 12 "cancelled" (by decide)))⟩

/-- C2 (counterexample): a booking request with quantity −5 on a full-capacity
facility (100 of 100 free) is accepted and leaves availableCapacity = 105,
above totalCapacity. -/
theorem c2_bounds_broken_by_negative_quantity :
    CapacityBounds emptyFacility ∧
      ¬ CapacityBounds
        (createBooking emptyFacility 3 12 { sampleRequest with quantity := -5 }).1 := by
  decide

/-- C2 (amended): on a facility with 0 ≤ availableCapacity ≤ totalCapacity, a
createBooking request with quantity ≥ 0 keeps the bounds; if the facility also
satisfies the capacity equation and its pending, confirmed and active bookings
have quantity ≥ 0, a transitionBookingStatus request that does not name a
cancelled or completed booking keeps the bounds. -/
theorem c2_capacity_bounds_preserved (cs : Facility) (hb : CapacityBounds cs) :
    (∀ user newId req, 0 ≤ req.quantity →
      CapacityBounds (createBooking cs user newId req).1) ∧
    (∀ actor bookingId status, CapacityEquation cs →
      (∀ x ∈ cs.bookings, x.status.isTerminal = false → 0 ≤ x.quantity) →
      (∀ b, findBooking cs.bookings bookingId = some b → b.status.isTerminal = false) →
        CapacityBounds (transitionBookingStatus cs actor bookingId status).1) := by
  constructor
  · intro user newId req hq
    rcases lt_or_le cs.facilities.availableCapacity req.quantity with hlt | hle
    · rw [createBooking_rejected cs user newId req hlt]; exact hb
    · rw [createBooking_accepted cs user newId req hle]
      unfold CapacityBounds at hb ⊢
      simp only
      omega
  · intro actor bookingId status heq hnonneg hlive
    rcases transition_cases cs actor bookingId status with hsame | ⟨b, st, hown, hfind, hst⟩
    · rw [hsame]; exact hb
    · subst hown
      rw [transition_accepted cs bookingId status b st hfind hst]
      have hmem := findBooking_mem hfind
      have hle := (quantity_le_reserved hmem (hlive b hfind) hnonneg).1
      have hq := hnonneg b hmem (hlive b hfind)
      unfold CapacityBounds at hb ⊢
      unfold CapacityEquation at heq
      cases st.isTerminal
      · simpa using hb
      · simp only [if_true]
        omega

/-- C2 (witness): the sample facility is within bounds and stays so after the
owner cancels its pending booking. -/
theorem c2_capacity_bounds_preserved_witness :
    CapacityBounds sampleFacility ∧
      CapacityBounds (transitionBookingStatus sampleFacility 7 11 "cancelled").1 :=
  ⟨by decide,
    (c2_capacity_bounds_preserved sampleFacility (by decide)).2 7 11 "cancelled"
      (by decide) (by decide) (by decide)⟩

/-- C3: a createBooking request whose quantity exceeds availableCapacity is
rejected with HTTP 400 "Insufficient capacity available" and the facility
(bookings list, availableCapacity and every other path) is unchanged. -/
theorem c3_insufficient_capacity_rejected (cs : Facility) (user newId : Nat)
    (req : BookRequest) (h : cs.facilities.availableCapacity < req.quantity) :
    (createBooking cs user newId req).2 =
        Reply.error 400 "Insufficient capacity available" ∧
      (createBooking cs user newId req).2.code = 400 ∧
      (createBooking cs user newId req).1 = cs := by
  rw [createBooking_rejected cs user newId req h]
  exact ⟨rfl, rfl, rfl⟩

/-- C3 (witness): 50 units requested with 40 free. -/
theorem c3_insufficient_capacity_rejected_witness :
    sampleFacility.facilities.availableCapacity < 50 ∧
      (createBooking sampleFacility 3 12 { sampleRequest with quantity := 50 }).2 =
        Reply.error 400 "Insufficient capacity available" ∧
      (createBooking sampleFacility 3 12 { sampleRequest with quantity := 50 }).2.code = 400 ∧
      (createBooking sampleFacility 3 12 { sampleRequest with quantity := 50 }).1 =
        sampleFacility :=
  ⟨by decide,
    c3_insufficient_capacity_rejected sampleFacility 3 12
      { sampleRequest with quantity := 50 } (by decide)⟩

/-- C4: a createBooking request with 0 < quantity ≤ availableCapacity succeeds
(HTTP 200) and the stored facility is the old one with exactly two paths
changed together: one pending booking (requester, crop, quantity, dates)
appended at the end of the bookings list, and availableCapacity lowered by
quantity. Whatever the request, the stored facility is either unchanged or
has both changes: never the booking without the decrement or the decrement
without the booking. -/
theorem c4_booking_appended_with_decrement (cs : Facility) (user newId : Nat)
    (req : BookRequest) (hpos : 0 < req.quantity)
    (hle : req.quantity ≤ cs.facilities.availableCapacity) :
    (createBooking cs user newId req).2.code = 200 ∧
      (createBooking cs user newId req).1 =
        { cs with
          bookings := cs.bookings ++
            [{ _id := newId, user := user, crop := req.crop, quantity := req.quantity,
               startDate := req.startDate, endDate := req.endDate,
               status := Status.pending }]
          facilities :=
            { cs.facilities with
              availableCapacity := cs.facilities.availableCapacity - req.quantity } } ∧
      (∀ (u n : Nat) (r : BookRequest),
        (createBooking cs u n r).1 = cs ∨
          ((createBooking cs u n r).1.bookings = cs.bookings ++
              [{ _id := n, user := u, crop := r.crop, quantity := r.quantity,
                 startDate := r.startDate, endDate := r.endDate,
                 status := Status.pending }] ∧
            (createBooking cs u n r).1.facilities.availableCapacity =
              cs.facilities.availableCapacity - r.quantity)) := by
  have _ := hpos
  refine ⟨?_, ?_, ?_⟩
  · rw [createBooking_accepted cs user newId req hle]; rfl
  · rw [createBooking_accepted cs user newId req hle]
  · intro u n r
    rcases lt_or_le cs.facilities.availableCapacity r.quantity with hlt | hok
    · left; rw [createBooking_rejected cs u n r hlt]
    · right; rw [createBooking_accepted cs u n r hok]; exact ⟨rfl, rfl⟩

/-- C4 (witness): 10 units requested with 40 free. -/
theorem c4_booking_appended_with_decrement_witness :
    (createBooking sampleFacility 3 12 sampleRequest).2.code = 200 ∧
      (createBooking sampleFacility 3 12 sampleRequest).1.bookings =
        sampleFacility.bookings ++
          [{ _id := 12, user := 3, crop := "potato", quantity := 10,
             startDate := 0, endDate := 216000000, status := Status.pending }] ∧
      (createBooking sampleFacility 3 12 sampleRequest).1.facilities.availableCapacity = 30 :=
  have h := c4_booking_appended_with_decrement sampleFacility 3 12 sampleRequest
    (by decide) (by decide)
  ⟨h.1, by rw [h.2.1]; rfl, by rw [h.2.1]; rfl⟩

/-- C5: an accepted createBooking request replies with
cost = ⌈(endDate − startDate) / one day⌉ × quantity × perTonPerDay (the day
count rounded up), which is also the reply's totalCost; two accepted requests
with the same quantity, dates and rate get the same cost, whatever else
differs (facility, requester, crop, booking id). -/
theorem c5_cost_formula (cs : Facility) (user newId : Nat) (req : BookRequest)
    (hle : req.quantity ≤ cs.facilities.availableCapacity) :
    (∃ receipt, (createBooking cs user newId req).2.body? = some receipt ∧
      receipt.cost =
        ⌈((req.endDate - req.startDate : Int) : ℚ) / 86400000⌉ * req.quantity *
          cs.pricing.perTonPerDay ∧
      receipt.totalCost = receipt.cost) ∧
    (∀ (cs' : Facility) (user' newId' : Nat) (req' : BookRequest),
      req'.quantity ≤ cs'.facilities.availableCapacity →
      req'.quantity = req.quantity → req'.startDate = req.startDate →
      req'.endDate = req.endDate → cs'.pricing.perTonPerDay = cs.pricing.perTonPerDay →
        ((createBooking cs' user' newId' req').2.body?).map (fun r => r.cost) =
          ((createBooking cs user newId req).2.body?).map (fun r => r.cost)) := by
  constructor
  · rw [createBooking_accepted cs user newId req hle]
    refine ⟨_, rfl, ?_, rfl⟩
    show bookingCost cs req = _
    unfold bookingCost
    rw [bookingDays_eq_ceil]
  · intro cs' user' newId' req' hle' hq hs he hr
    rw [createBooking_accepted cs user newId req hle,
      createBooking_accepted cs' user' newId' req' hle']
    simp only [Reply.body?, Option.map_some']
    unfold bookingCost
    rw [hq, hs, he, hr]

/-- C5 (witness): 10 units for two and a half days at rate 2 cost 3 × 10 × 2. -/
theorem c5_cost_formula_witness :
    ∃ receipt, (createBooking sampleFacility 3 12 sampleRequest).2.body? = some receipt ∧
      receipt.cost =
        ⌈((sampleRequest.endDate - sampleRequest.startDate : Int) : ℚ) / 86400000⌉ *
          sampleRequest.quantity * sampleFacility.pricing.perTonPerDay ∧
      receipt.totalCost = receipt.cost :=
  (c5_cost_formula sampleFacility 3 12 sampleRequest (by decide)).1

/-- C6: for a booking that is pending, confirmed or active, the owner's
transition request to cancelled or completed is accepted, sets that booking's
status to the new status and raises availableCapacity by exactly the
booking's quantity. -/
theorem c6_closing_restores_quantity (cs : Facility) (bookingId : Nat) (status : String)
    (b : Booking) (st : Status) (hfind : findBooking cs.bookings bookingId = some b)
    (hlive : b.status.isTerminal = false) (hst : Status.ofString status = some st)
    (hclose : st = Status.cancelled ∨ st = Status.completed) :
    (transitionBookingStatus cs cs.owner bookingId status).2 =
        Reply.ok "Booking status updated successfully" { b with status := st } ∧
      findBooking (transitionBookingStatus cs cs.owner bookingId status).1.bookings bookingId =
        some { b with status := st } ∧
      (transitionBookingStatus cs cs.owner bookingId status).1.facilities.availableCapacity =
        cs.facilities.availableCapacity + b.quantity := by
  have _ := hlive
  rw [transition_accepted cs bookingId status b st hfind hst]
  refine ⟨rfl, ?_, ?_⟩
  · simp only [findBooking_assignStatus, hfind, Option.map_some']
  · rcases hclose with h | h <;> subst h <;> rfl

/-- C6 (witness): the owner completes the pending 60-unit booking of the
sample facility; 40 free units become 100. -/
theorem c6_closing_restores_quantity_witness :
    findBooking (transitionBookingStatus sampleFacility 7 11 "completed").1.bookings 11 =
        some { _id := 11, user := 3, crop := "onion", quantity := 60,
               startDate := 0, endDate := 432000000, status := Status.completed } ∧
      (transitionBookingStatus sampleFacility 7 11 "completed").1.facilities.availableCapacity =
        40 + 60 :=
  (c6_closing_restores_quantity sampleFacility 11 "completed"
    { _id := 11, user := 3, crop := "onion", quantity := 60,
      startDate := 0, endDate := 432000000, status := Status.pending }
    Status.completed (by decide) (by decide) (by decide) (by decide)).2

/-- C7 (the code at the failing input): the owner cancelling the pending
60-unit booking of the sample facility once gives availableCapacity 100;
cancelling the same booking a second time gives 160, above totalCapacity 100:
the quantity is credited twice. -/
theorem c7_cancelling_twice_credits_twice :
    (transitionBookingStatus sampleFacility 7 11 "cancelled").1.facilities.availableCapacity
        = 100 ∧
      (transitionBookingStatus (transitionBookingStatus sampleFacility 7 11 "cancelled").1
        7 11 "cancelled").1.facilities.availableCapacity = 160 ∧
      (transitionBookingStatus (transitionBookingStatus sampleFacility 7 11 "cancelled").1
        7 11 "cancelled").2.code = 200 := by
  decide

/-- C8 (counterexample): the owner's request to move a cancelled booking to
pending is accepted with HTTP 200 and the booking's status becomes pending. -/
theorem c8_cancelled_booking_reopened :
    (findBooking closedFacility.bookings 11).map (fun b => b.status) =
        some Status.cancelled ∧
      (transitionBookingStatus closedFacility 7 11 "pending").2.code = 200 ∧
      (findBooking (transitionBookingStatus closedFacility 7 11 "pending").1.bookings 11).map
        (fun b => b.status) = some Status.pending := by
  decide

/-- C8 (amended): for a booking whose status is cancelled or completed, the
owner's transition request with any of the five statuses is accepted
(HTTP 200, no terminal-status guard) and sets the booking's status to the new
status; availableCapacity is unchanged when the new status is pending,
confirmed or active. -/
theorem c8_terminal_booking_not_guarded (cs : Facility) (bookingId : Nat) (status : String)
    (b : Booking) (st : Status) (hfind : findBooking cs.bookings bookingId = some b)
    (hterm : b.status.isTerminal = true) (hst : Status.ofString status = some st) :
    (transitionBookingStatus cs cs.owner bookingId status).2.code = 200 ∧
      findBooking (transitionBookingStatus cs cs.owner bookingId status).1.bookings bookingId =
        some { b with status := st } ∧
      (st.isTerminal = false →
        (transitionBookingStatus cs cs.owner bookingId status).1.facilities.availableCapacity =
          cs.facilities.availableCapacity) := by
  have _ := hterm
  rw [transition_accepted cs bookingId status b st hfind hst]
  refine ⟨rfl, ?_, ?_⟩
  · simp only [findBooking_assignStatus, hfind, Option.map_some']
  · intro hlive
    simp only [hlive, Bool.false_eq_true, if_false]

/-- C8 (witness): the cancelled booking of `closedFacility` set to confirmed. -/
theorem c8_terminal_booking_not_guarded_witness :
    (transitionBookingStatus closedFacility 7 11 "confirmed").2.code = 200 ∧
      findBooking (transitionBookingStatus closedFacility 7 11 "confirmed").1.bookings 11 =
        some { _id := 11, user := 3, crop := "onion", quantity := 60,
               startDate := 0, endDate := 432000000, status := Status.confirmed } ∧
      (Status.confirmed.isTerminal = false →
        (transitionBookingStatus closedFacility 7 11 "confirmed").1.facilities.availableCapacity
          = 100) :=
  c8_terminal_booking_not_guarded closedFacility 11 "confirmed"
    { _id := 11, user := 3, crop := "onion", quantity := 60,
      startDate := 0, endDate := 432000000, status := Status.cancelled }
    Status.confirmed (by decide) (by decide) (by decide)

/-- C9 (counterexample): a request with quantity 0 whose endDate is before its
startDate is accepted with HTTP 200 and a booking is appended. -/
theorem c9_invalid_request_accepted :
    (createBooking sampleFacility 3 12
        { sampleRequest with quantity := 0, startDate := 216000000, endDate := 0 }).2.code
        = 200 ∧
      (createBooking sampleFacility 3 12
        { sampleRequest with quantity := 0, startDate := 216000000, endDate := 0 }).1.bookings
        ≠ sampleFacility.bookings := by
  decide

/-- C9 (amended): a createBooking request whose quantity is ≤ 0 or whose
endDate is not later than its startDate meets no validation: it is rejected
(HTTP 400, facility unchanged) only when its quantity exceeds
availableCapacity, and otherwise it is accepted like any other request
(HTTP 200, a pending booking appended, availableCapacity lowered by quantity). -/
theorem c9_no_input_validation (cs : Facility) (user newId : Nat) (req : BookRequest)
    (hbad : req.quantity ≤ 0 ∨ req.endDate ≤ req.startDate) :
    (cs.facilities.availableCapacity < req.quantity →
      (createBooking cs user newId req).2.code = 400 ∧
        (createBooking cs user newId req).1 = cs) ∧
    (req.quantity ≤ cs.facilities.availableCapacity →
      (createBooking cs user newId req).2.code = 200 ∧
        (createBooking cs user newId req).1.bookings = cs.bookings ++
          [{ _id := newId, user := user, crop := req.crop, quantity := req.quantity,
             startDate := req.startDate, endDate := req.endDate,
             status := Status.pending }] ∧
        (createBooking cs user newId req).1.facilities.availableCapacity =
          cs.facilities.availableCapacity - req.quantity) := by
  have _ := hbad
  constructor
  · intro hlt
    rw [createBooking_rejected cs user newId req hlt]
    exact ⟨rfl, rfl⟩
  · intro hle
    rw [createBooking_accepted cs user newId req hle]
    exact ⟨rfl, rfl, rfl⟩

/-- C9 (witness): quantity −5 is accepted on the sample facility and raises
availableCapacity from 40 to 45. -/
theorem c9_no_input_validation_witness :
    (createBooking sampleFacility 3 12 { sampleRequest with quantity := -5 }).2.code = 200 ∧
      (createBooking sampleFacility 3 12
        { sampleRequest with quantity := -5 }).1.facilities.availableCapacity = 40 - -5 :=
  have h := (c9_no_input_validation sampleFacility 3 12 { sampleRequest with quantity := -5 }
    (Or.inl (by decide))).2 (by decide)
  ⟨h.1, h.2.2⟩

/-- C10: a transitionBookingStatus request by a user who is not the facility's
owner is answered with HTTP 403 "Not authorized", whatever booking and status
it names, and stores nothing: every booking status and availableCapacity are
as before. -/
theorem c10_non_owner_rejected (cs : Facility) (actor bookingId : Nat) (status : String)
    (hactor : actor ≠ cs.owner) :
    (transitionBookingStatus cs actor bookingId status).2 =
        Reply.error 403 "Not authorized" ∧
      (transitionBookingStatus cs actor bookingId status).2.code = 403 ∧
      (transitionBookingStatus cs actor bookingId status).1 = cs := by
  have h : cs.owner ≠ actor := fun e => hactor e.symm
  unfold transitionBookingStatus
  rw [if_pos h]
  exact ⟨rfl, rfl, rfl⟩

/-- C10 (witness): user 3 (not the owner 7) tries to cancel booking 11. -/
theorem c10_non_owner_rejected_witness :
    (transitionBookingStatus sampleFacility 3 11 "cancelled").2 =
        Reply.error 403 "Not authorized" ∧
      (transitionBookingStatus sampleFacility 3 11 "cancelled").2.code = 403 ∧
      (transitionBookingStatus sampleFacility 3 11 "cancelled").1 = sampleFacility :=
  c10_non_owner_rejected sampleFacility 3 11 "cancelled" (by decide)

/-- C11: on a facility with totalCapacity = 100, availableCapacity = 100, no
bookings and rate 2, a booking of 60 units over exactly 5 days succeeds with
cost 600 and leaves availableCapacity = 40; a following booking of 50 units is
rejected with HTTP 400 for insufficient capacity and availableCapacity stays
40; the owner then cancelling the first booking brings availableCapacity back
to 100. Requesters, crops, start dates and booking ids are arbitrary. -/
theorem c11_capacity_scenario (u u2 n n2 : Nat) (crop crop2 note note2 : String)
    (s s2 e2 : Int) :
    ((createBooking emptyFacility u n
        { crop := crop, quantity := 60, startDate := s, endDate := s + 5 * msPerDay,
          specialInstructions := note }).2.body?).map (fun r => (r.cost, r.totalCost)) =
        some (600, 600) ∧
      (createBooking emptyFacility u n
        { crop := crop, quantity := 60, startDate := s, endDate := s + 5 * msPerDay,
          specialInstructions := note }).1.facilities.availableCapacity = 40 ∧
      (createBooking
        (createBooking emptyFacility u n
          { crop := crop, quantity := 60, startDate := s, endDate := s + 5 * msPerDay,
            specialInstructions := note }).1
        u2 n2
        { crop := crop2, quantity := 50, startDate := s2, endDate := e2,
          specialInstructions := note2 }) =
        ((createBooking emptyFacility u n
          { crop := crop, quantity := 60, startDate := s, endDate := s + 5 * msPerDay,
            specialInstructions := note }).1,
          Reply.error 400 "Insufficient capacity available") ∧
      (transitionBookingStatus
        (createBooking emptyFacility u n
          { crop := crop, quantity := 60, startDate := s, endDate := s + 5 * msPerDay,
            specialInstructions := note }).1
        emptyFacility.owner n "cancelled").1.facilities.availableCapacity = 100 := by
  have hfirst := createBooking_accepted emptyFacility u n
    { crop := crop, quantity := 60, startDate := s, endDate := s + 5 * msPerDay,
      specialInstructions := note } (by show (60 : Int) ≤ 100; decide)
  rw [hfirst]
  refine ⟨?_, rfl, ?_, ?_⟩
  · simp only [Reply.body?, Option.map_some', bookingCost, bookingDays_whole_days]
    rfl
  · exact createBooking_rejected _ u2 n2 _ (by show (100 - 60 : Int) < 50; decide)
  · have hfind : findBooking
        ([] ++ [({ _id := n, user := u, crop := crop, quantity := 60, startDate := s,
                   endDate := s + 5 * msPerDay, status := Status.pending } : Booking)]) n =
        some { _id := n, user := u, crop := crop, quantity := 60, startDate := s,
               endDate := s + 5 * msPerDay, status := Status.pending } := by
      simp [findBooking]
    have h := transition_accepted
      { emptyFacility with
        bookings := emptyFacility.bookings ++
          [{ _id := n, user := u, crop := crop, quantity := 60, startDate := s,
             endDate := s + 5 * msPerDay, status := Status.pending }]
        facilities :=
          { emptyFacility.facilities with
            availableCapacity := emptyFacility.facilities.availableCapacity - 60 } }
      n "cancelled" _ Status.cancelled hfind (by decide)
    exact (congrArg (fun r => r.1.facilities.availableCapacity) h).trans
      (by show (100 - 60 + 60 : Int) = 100; decide)

/-- C12 (the code at the failing input): user 3 holds bookings 11 and 13 in
the same facility; the result of listBookingsForUser has one entry whose
bookings array holds booking 11 only, so booking 13 of user 3 is missing. -/
theorem c12_second_booking_missing :
    ((busyFacility.bookings.filter (fun b => b.user == 3)).map (fun b => b._id)) = [11, 13] ∧
      (listBookingsForUser [busyFacility] 3).map
        (fun e => (e._id, e.bookings.map (fun b => b._id))) = [(1, [11])] := by
  decide

/-- C13: every booking in the result of listBookingsForUser for user u has
user u and is a booking of the facility of its entry; each entry carries of
that facility only `_id`, `name` and `location`; and two collections whose
facilities agree pairwise on `_id`, `name`, `location` and on the bookings of
u (whatever else differs, bookings of other users included) give the same
result for u. -/
theorem c13_only_own_bookings_exposed (db : List Facility) (u : Nat) :
    (∀ e ∈ listBookingsForUser db u, ∀ b ∈ e.bookings, b.user = u) ∧
    (∀ e ∈ listBookingsForUser db u, ∃ cs ∈ db,
      e._id = cs._id ∧ e.name = cs.name ∧ e.location = cs.location ∧
        ∀ b ∈ e.bookings, b ∈ cs.bookings) ∧
    (∀ db', List.Forall₂ (SameViewFor u) db db' →
      listBookingsForUser db' u = listBookingsForUser db u) := by
  have hentry : ∀ e ∈ listBookingsForUser db u, ∃ cs ∈ db,
      e = { _id := cs._id, name := cs.name, location := cs.location,
            bookings := elemMatchUser cs.bookings u } := by
    intro e he
    unfold listBookingsForUser at he
    obtain ⟨cs, hcs, rfl⟩ := List.mem_map.mp he
    exact ⟨cs, (List.mem_filter.mp hcs).1, rfl⟩
  refine ⟨?_, ?_, ?_⟩
  · intro e he b hb
    obtain ⟨cs, _, rfl⟩ := hentry e he
    exact (elemMatchUser_user cs.bookings u b hb).1
  · intro e he
    obtain ⟨cs, hcs, rfl⟩ := hentry e he
    exact ⟨cs, hcs, rfl, rfl, rfl, fun b hb => (elemMatchUser_user cs.bookings u b hb).2⟩
  · intro db' hsame
    clear hentry
    induction hsame with
    | nil => rfl
    | cons hab _ ih =>
      obtain ⟨hany, helem⟩ := sameViewFor_entry hab
      obtain ⟨hid, hname, hloc, _⟩ := hab
      rw [listBookingsForUser_cons, listBookingsForUser_cons, ih, hany, helem, hid, hname,
        hloc]

/-- C14: listBookingsForOwner returns the complete bookings list of the
facility, in stored order, exactly when the requester is the owner; for every
other requester it returns HTTP 403 "Not authorized" and no bookings. -/
theorem c14_owner_listing (cs : Facility) (requester : Nat) :
    (listBookingsForOwner cs requester = Except.ok cs.bookings ↔ requester = cs.owner) ∧
      (listBookingsForOwner cs requester = Except.error (403, "Not authorized") ↔
        requester ≠ cs.owner) := by
  unfold listBookingsForOwner
  by_cases h : cs.owner = requester
  · simp [h]
  · have h2 : ¬ requester = cs.owner := fun e => h e.symm
    simp [h, h2]

/-- C15: after any transitionBookingStatus request the facility has the same
number of bookings in the same order, every booking keeps its `_id`, user,
crop, quantity and dates, and a booking whose status differs from before is
the booking the request names. -/
theorem c15_transition_frame (cs : Facility) (actor bookingId : Nat) (status : String) :
    (transitionBookingStatus cs actor bookingId status).1.bookings.length =
        cs.bookings.length ∧
      List.Forall₂ (StatusFrame cs.bookings bookingId) cs.bookings
        (transitionBookingStatus cs actor bookingId status).1.bookings := by
  have hframe : List.Forall₂ (StatusFrame cs.bookings bookingId) cs.bookings
      (transitionBookingStatus cs actor bookingId status).1.bookings := by
    rcases transition_cases cs actor bookingId status with hsame | ⟨b, st, hown, hfind, hst⟩
    · rw [hsame]
      exact List.forall₂_same.mpr (fun b _ => statusFrame_refl _ _ b)
    · subst hown
      rw [transition_accepted cs bookingId status b st hfind hst]
      exact assignStatus_frame cs.bookings bookingId st
  exact ⟨hframe.length_eq.symm, hframe⟩

/-- C16 (counterexample): the owner's request to set the active booking 13 to
pending succeeds with HTTP 200 and the booking becomes pending, a move that
is neither forward in pending < confirmed < active < completed nor a
cancellation. -/
theorem c16_active_moved_back_to_pending :
    (findBooking busyFacility.bookings 13).map (fun b => b.status) = some Status.active ∧
      (transitionBookingStatus busyFacility 7 13 "pending").2.code = 200 ∧
      (findBooking (transitionBookingStatus busyFacility 7 13 "pending").1.bookings 13).map
        (fun b => b.status) = some Status.pending ∧
      ¬ MonotonicMove Status.active Status.pending := by
  refine ⟨by decide, by decide, by decide, ?_⟩
  rintro (⟨i, j, hi, hj, hij⟩ | ⟨_, h⟩)
  · simp only [Status.rank, Option.some.injEq] at hi hj
    omega
  · cases h

/-- C16 (amended): status transitions are not ordered: for every existing
booking, whatever its current status, and every one of the five statuses, the
owner's transitionBookingStatus request with that status succeeds (HTTP 200)
and leaves the booking in exactly that status; so a booking can move
backwards, for example from active to pending. -/
theorem c16_any_status_from_any_status (cs : Facility) (bookingId : Nat) (b : Booking)
    (st : Status) (hfind : findBooking cs.bookings bookingId = some b) :
    (transitionBookingStatus cs cs.owner bookingId st.label).2.code = 200 ∧
      findBooking (transitionBookingStatus cs cs.owner bookingId st.label).1.bookings
        bookingId = some { b with status := st } := by
  rw [transition_accepted cs bookingId st.label b st hfind (ofString_label st)]
  refine ⟨rfl, ?_⟩
  simp only [findBooking_assignStatus, hfind, Option.map_some']

/-- C16 (witness): the confirmed booking 12 of the busy facility set back to
pending. -/
theorem c16_any_status_from_any_status_witness :
    (transitionBookingStatus busyFacility 7 12 "pending").2.code = 200 ∧
      findBooking (transitionBookingStatus busyFacility 7 12 "pending").1.bookings 12 =
        some { _id := 12, user := 4, crop := "grape", quantity := 20,
               startDate := 0, endDate := 432000000, status := Status.pending } :=
  c16_any_status_from_any_status busyFacility 12
    { _id := 12, user := 4, crop := "grape", quantity := 20,
      startDate := 0, endDate := 432000000, status := Status.confirmed }
    Status.pending (by decide)

/-- C17 (the code at the failing input): for the accepted sample request the
reply carries cost = totalCost = 60 and the facility name, while the booking
stored in the facility is the record of the schema paths `_id`, user, crop,
quantity, dates and status: the schema of `bookings` has no `cost` path, so
the computed cost is not stored. -/
theorem c17_cost_only_in_reply :
    ((createBooking sampleFacility 3 12 sampleRequest).2.body?).map
        (fun r => (r.cost, r.totalCost, r.facility)) = some (60, 60, "Kisan Cold Store") ∧
      (createBooking sampleFacility 3 12 sampleRequest).1.bookings.getLast? =
        some { _id := 12, user := 3, crop := "potato", quantity := 10,
               startDate := 0, endDate := 216000000, status := Status.pending } := by
  decide

end ColdStorage

namespace JsNumber

theorem bitLength_zero (fuel : Nat) : bitLength fuel 0 = 0 := by
  cases fuel <;> simp [bitLength]

/-- With enough fuel, `bitLength` is the number of binary digits. -/
theorem bitLength_spec (fuel n : Nat) (h : n ≤ fuel) (hn : 0 < n) :
    0 < bitLength fuel n ∧ 2 ^ (bitLength fuel n - 1) ≤ n ∧ n < 2 ^ bitLength fuel n := by
  induction fuel generalizing n with
  | zero => omega
  | succ fuel ih =>
    have hne : n ≠ 0 := by omega
    have hunfold : bitLength (fuel + 1) n = bitLength fuel (n / 2) + 1 := by
      simp [bitLength, hne]
    rw [hunfold]
    by_cases hhalf : n / 2 = 0
    · have hn1 : n = 1 := by omega
      rw [hhalf, bitLength_zero]
      subst hn1
      decide
    · have hle : n / 2 ≤ fuel := by omega
      obtain ⟨hpos, hlow, hhigh⟩ := ih (n / 2) hle (by omega)
      refine ⟨by omega, ?_, ?_⟩
      · have h2 : 2 ^ (bitLength fuel (n / 2) + 1 - 1) =
            2 * 2 ^ (bitLength fuel (n / 2) - 1) := by
          have : bitLength fuel (n / 2) + 1 - 1 = (bitLength fuel (n / 2) - 1) + 1 := by omega
          rw [this, pow_succ]; ring
        rw [h2]
        omega
      · rw [pow_succ]
        omega

theorem roundHalfEven_one (n : Nat) : roundHalfEven n 1 = n := by
  simp [roundHalfEven, Nat.mod_one]

/-- Whole numbers below `2^53` are binary64 values: rounding keeps them. -/
theorem fl_natCast (n : Nat) (h : n < 2 ^ 53) : fl (n : ℚ) = n := by
  by_cases hn : n = 0
  · subst hn; simp [fl]
  · have hpos : 0 < n := Nat.pos_of_ne_zero hn
    obtain ⟨hb, hlow, hhigh⟩ := bitLength_spec n n le_rfl hpos
    have hb53 : bitLength n n ≤ 53 := by
      by_contra hgt
      have h54 : 53 ≤ bitLength n n - 1 := by omega
      have := Nat.pow_le_pow_right (by decide : 0 < 2) h54
      omega
    have hone : bitLength 1 1 = 1 := by decide
    have hfloor : floorLog2 n 1 = (bitLength n n : Int) - 1 := by
      unfold floorLog2
      rw [hone]
      have ht : (((bitLength n n : Nat) : Int) - ((1 : Nat) : Int)).toNat =
          bitLength n n - 1 := by
        omega
      have ht2 : (-(((bitLength n n : Nat) : Int) - ((1 : Nat) : Int))).toNat = 0 := by omega
      simp only [ht, ht2, pow_zero, mul_one, one_mul]
      rw [if_pos hlow]
      rfl
    have hq : max (floorLog2 n 1 - 52) (-1074) = (bitLength n n : Int) - 53 := by
      rw [hfloor]
      have : ((bitLength n n : Int) - 1 - 52 : Int) = (bitLength n n : Int) - 53 := by ring
      rw [this]
      apply max_eq_left
      omega
    have hx : (n : ℚ) ≠ 0 := by exact_mod_cast hn
    have hnonneg : ¬ ((n : ℚ) < 0) := by
      have : (0 : ℚ) ≤ n := Nat.cast_nonneg n
      exact not_lt.mpr this
    unfold fl
    rw [if_neg hx]
    simp only [Rat.num_natCast, Rat.den_natCast, Int.natAbs_ofNat, hq]
    rw [if_neg hnonneg]
    have hk1 : ((bitLength n n : Int) - 53).toNat = 0 := by omega
    have hk2 : (-((bitLength n n : Int) - 53)).toNat = 53 - bitLength n n := by omega
    rw [hk1, hk2]
    simp only [pow_zero, mul_one, roundHalfEven_one]
    rw [Rat.mkRat_eq_div]
    push_cast
    field_simp

/-- Rounding commutes with negation. -/
theorem fl_neg (x : ℚ) : fl (-x) = -fl x := by
  by_cases hx : x = 0
  · subst hx; simp [fl]
  · have hnx : -x ≠ 0 := neg_ne_zero.mpr hx
    unfold fl
    rw [if_neg hx, if_neg hnx]
    simp only [Rat.neg_num, Rat.neg_den, Int.natAbs_neg]
    rcases lt_or_gt_of_ne hx with hlt | hgt
    · have h1 : ¬ (-x < 0) := by
        rw [neg_lt_zero]; exact not_lt.mpr hlt.le
      rw [if_pos hlt, if_neg h1, neg_neg]
    · have h1 : -x < 0 := neg_lt_zero.mpr hgt
      have h2 : ¬ (x < 0) := not_lt.mpr hgt.le
      rw [if_pos h1, if_neg h2]

/-- Whole numbers below `2^53` in size are binary64 values. -/
theorem fl_intCast (n : Int) (h : n.natAbs < 2 ^ 53) : fl (n : ℚ) = n := by
  have hnat : fl ((n.natAbs : Nat) : ℚ) = (n.natAbs : Nat) := fl_natCast n.natAbs h
  rcases Int.natAbs_eq n with hn | hn
  · have hcast : (n : ℚ) = ((n.natAbs : Nat) : ℚ) := by
      conv_lhs => rw [hn]
      exact Int.cast_natCast _
    rw [hcast]
    exact hnat
  · have hcast : (n : ℚ) = -((n.natAbs : Nat) : ℚ) := by
      conv_lhs => rw [hn]
      rw [Int.cast_neg, Int.cast_natCast]
    rw [hcast, fl_neg, hnat]

/-- On whole numbers whose difference is below `2^53` in size, JavaScript
subtraction is exact; likewise addition. -/
theorem sub_add_intCast (a b : Int) :
    ((a - b).natAbs < 2 ^ 53 → sub (a : ℚ) b = ((a - b : Int) : ℚ)) ∧
      ((a + b).natAbs < 2 ^ 53 → add (a : ℚ) b = ((a + b : Int) : ℚ)) := by
  constructor
  · intro h
    unfold sub
    rw [← Int.cast_sub]
    exact fl_intCast _ h
  · intro h
    unfold add
    rw [← Int.cast_add]
    exact fl_intCast _ h

/-- `Math.round` differs from its argument by at most one half. -/
theorem mathRound_near (x : ℚ) : |(mathRound x : ℚ) - x| ≤ 1 / 2 := by
  unfold mathRound
  have h1 := Int.floor_le (x + 1 / 2)
  have h2 := Int.lt_floor_add_one (x + 1 / 2)
  rw [abs_le]
  constructor <;> linarith

/-- The number nearest to 1/10 is 3602879701896397 / 2^55, and the number
nearest to 18/100 is 3242591731706757 / 2^54. -/
theorem fl_tenth_and_gst :
    fl (1 / 10) = mkRat 3602879701896397 (2 ^ 55) ∧
      fl (18 / 100) = mkRat 3242591731706757 (2 ^ 54) := by
  decide!

/-- Subtracting 0.1 twice from 100 gives 99.80000000000001, while 100 minus
the sum 0.1 + 0.1 gives 99.8: repeated subtraction of fractional quantities
does not keep `available = total − sum`. -/
theorem sub_twice_differs :
    sub (sub 100 (fl (1 / 10))) (fl (1 / 10)) = mkRat 1755700167232717 (2 ^ 44) ∧
      sub 100 (add (fl (1 / 10)) (fl (1 / 10))) = mkRat 7022800668930867 (2 ^ 46) ∧
      sub (sub 100 (fl (1 / 10))) (fl (1 / 10)) ≠
        sub 100 (add (fl (1 / 10)) (fl (1 / 10))) := by
  decide!

/-- The quotient of the two powers of two built from an integer exponent. -/
theorem pow_toNat_div (q : Int) :
    ((2 : ℚ) ^ q.toNat) / (2 : ℚ) ^ (-q).toNat = (2 : ℚ) ^ q := by
  rcases le_or_lt 0 q with h | h
  · have h1 : (-q).toNat = 0 := by omega
    rw [h1, pow_zero, div_one]
    conv_rhs => rw [← Int.toNat_of_nonneg h]
    rw [zpow_natCast]
  · have h1 : q.toNat = 0 := by omega
    have h2 : q = -((-q).toNat : Int) := by omega
    rw [h1, pow_zero]
    conv_rhs => rw [h2]
    rw [zpow_neg, zpow_natCast, one_div]

theorem floorLog2_le (n d : Nat) (hn : 0 < n) (hd : 0 < d) :
    (2 : ℚ) ^ (floorLog2 n d) ≤ (n : ℚ) / d := by
  have hdq : (0 : ℚ) < d := by exact_mod_cast hd
  have hnq : (0 : ℚ) < n := by exact_mod_cast hn
  unfold floorLog2
  simp only
  split_ifs with hc
  · -- the test is the claim
    rw [← pow_toNat_div]
    have hc' : (d : ℚ) * 2 ^ ((bitLength n n : Int) - (bitLength d d : Int)).toNat ≤
        (n : ℚ) * 2 ^ (-((bitLength n n : Int) - (bitLength d d : Int))).toNat := by
      exact_mod_cast hc
    rw [div_le_div_iff₀ (by positivity) hdq]
    linarith
  · obtain ⟨hbn, hlown, _⟩ := bitLength_spec n n le_rfl hn
    obtain ⟨hbd, _, hhighd⟩ := bitLength_spec d d le_rfl hd
    have h1 : ((bitLength n n : Int) - (bitLength d d : Int) - 1) =
        ((bitLength n n - 1 : Nat) : Int) - ((bitLength d d : Nat) : Int) := by omega
    rw [h1, zpow_sub₀ (by norm_num), zpow_natCast, zpow_natCast]
    have hlow' : ((2 : ℚ) ^ (bitLength n n - 1)) ≤ n := by exact_mod_cast hlown
    have hhigh' : (d : ℚ) < (2 : ℚ) ^ (bitLength d d) := by exact_mod_cast hhighd
    rw [div_le_div_iff₀ (by positivity) hdq]
    nlinarith

theorem roundHalfEven_near (n d : Nat) (hd : 0 < d) :
    |(roundHalfEven n d : ℚ) - (n : ℚ) / d| ≤ 1 / 2 := by
  have hdq : (0 : ℚ) < d := by exact_mod_cast hd
  have hsplit : (n : ℚ) = d * (n / d : Nat) + (n % d : Nat) := by
    exact_mod_cast (Nat.div_add_mod n d).symm
  have hr : (n % d : Nat) < d := Nat.mod_lt n hd
  have hrq : ((n % d : Nat) : ℚ) < d := by exact_mod_cast hr
  have hr0 : (0 : ℚ) ≤ ((n % d : Nat) : ℚ) := Nat.cast_nonneg _
  have hquot : (n : ℚ) / d = (n / d : Nat) + ((n % d : Nat) : ℚ) / d := by
    rw [eq_comm, ← sub_eq_zero]
    field_simp
    linarith
  have hlow : ∀ k : ℚ, k = (n / d : Nat) → 2 * ((n % d : Nat) : ℚ) ≤ d →
      |k - (n : ℚ) / d| ≤ 1 / 2 := by
    intro k hk h2
    rw [hquot, hk, abs_le]
    have : ((n % d : Nat) : ℚ) / d ≤ 1 / 2 := by
      rw [div_le_div_iff₀ hdq (by norm_num)]; linarith
    have : 0 ≤ ((n % d : Nat) : ℚ) / d := by positivity
    constructor <;> linarith
  have hhigh : ∀ k : ℚ, k = ((n / d : Nat) : ℚ) + 1 → (d : ℚ) ≤ 2 * ((n % d : Nat) : ℚ) →
      |k - (n : ℚ) / d| ≤ 1 / 2 := by
    intro k hk h2
    rw [hquot, hk, abs_le]
    have : 1 / 2 ≤ ((n % d : Nat) : ℚ) / d := by
      rw [div_le_div_iff₀ (by norm_num) hdq]; linarith
    have : ((n % d : Nat) : ℚ) / d < 1 := by
      rw [div_lt_one hdq]; exact hrq
    constructor <;> linarith
  unfold roundHalfEven
  simp only
  split_ifs with h1 h2 h3
  · exact hlow _ rfl (by exact_mod_cast h1.le)
  · exact hhigh _ (by push_cast; rfl) (by exact_mod_cast h2.le)
  · exact hlow _ rfl (by exact_mod_cast (not_lt.mp h2))
  · exact hhigh _ (by push_cast; rfl) (by exact_mod_cast (not_lt.mp h1))

/-- The rounding error of `fl`: half a unit in the last place, or half the smallest subnormal. -/
theorem fl_error (x : ℚ) : |fl x - x| ≤ |x| / 2 ^ 53 + 1 / 2 ^ 1075 := by
  by_cases hx : x = 0
  · subst hx
    simp [fl]
  have hnum : x.num ≠ 0 := by simpa using hx
  have hn : 0 < x.num.natAbs := Int.natAbs_pos.mpr hnum
  have hd : 0 < x.den := x.den_pos
  have hnq : (0 : ℚ) < x.num.natAbs := by exact_mod_cast hn
  have hdq : (0 : ℚ) < x.den := by exact_mod_cast hd
  have habs : |x| = (x.num.natAbs : ℚ) / x.den := by
    conv_lhs => rw [← Rat.num_div_den x]
    rw [abs_div, Nat.abs_cast, Nat.cast_natAbs, Int.cast_abs]
  have hfl : ∃ v : ℚ, (fl x = if x < 0 then -v else v) ∧
      |v - (|x|)| ≤ |x| / 2 ^ 53 + 1 / 2 ^ 1075 := by
    refine ⟨mkRat ((roundHalfEven
        (x.num.natAbs * 2 ^ (-(max (floorLog2 x.num.natAbs x.den - 52) (-1074))).toNat)
        (x.den * 2 ^ (max (floorLog2 x.num.natAbs x.den - 52) (-1074)).toNat) *
          2 ^ (max (floorLog2 x.num.natAbs x.den - 52) (-1074)).toNat : Nat) : Int)
        (2 ^ (-(max (floorLog2 x.num.natAbs x.den - 52) (-1074))).toNat),
      by simp only [fl, if_neg hx], ?_⟩
    set q : Int := max (floorLog2 x.num.natAbs x.den - 52) (-1074) with hq
    have hA : (0 : ℚ) < 2 ^ q.toNat := by positivity
    have hB : (0 : ℚ) < 2 ^ (-q).toNat := by positivity
    have hDpos : 0 < x.den * 2 ^ q.toNat := by positivity
    have hnear := roundHalfEven_near (x.num.natAbs * 2 ^ (-q).toNat) (x.den * 2 ^ q.toNat) hDpos
    set m := roundHalfEven (x.num.natAbs * 2 ^ (-q).toNat) (x.den * 2 ^ q.toNat) with hm
    have hv : mkRat ((m * 2 ^ q.toNat : Nat) : Int) (2 ^ (-q).toNat) =
        (m : ℚ) * ((2 : ℚ) ^ q) := by
      rw [Rat.mkRat_eq_div, ← pow_toNat_div]
      push_cast
      ring
    have hscale : ((x.num.natAbs * 2 ^ (-q).toNat : Nat) : ℚ) / ((x.den * 2 ^ q.toNat : Nat) : ℚ) =
        |x| / (2 : ℚ) ^ q := by
      rw [habs, ← pow_toNat_div]
      push_cast
      field_simp
    rw [hv]
    rw [hscale] at hnear
    have hqpos : (0 : ℚ) < (2 : ℚ) ^ q := by positivity
    have hdiff : (m : ℚ) * (2 : ℚ) ^ q - |x| = ((m : ℚ) - |x| / (2 : ℚ) ^ q) * (2 : ℚ) ^ q := by
      field_simp
    rw [hdiff, abs_mul, abs_of_pos hqpos]
    have hstep : |(m : ℚ) - |x| / (2 : ℚ) ^ q| * (2 : ℚ) ^ q ≤ 1 / 2 * (2 : ℚ) ^ q :=
      mul_le_mul_of_nonneg_right hnear hqpos.le
    refine hstep.trans ?_
    have hlog := floorLog2_le x.num.natAbs x.den hn hd
    rw [← habs] at hlog
    rcases le_total (floorLog2 x.num.natAbs x.den - 52) (-1074) with hcase | hcase
    · have : q = -1074 := by rw [hq]; exact max_eq_right hcase
      rw [this]
      have h0 : (0 : ℚ) ≤ |x| / 2 ^ 53 := by positivity
      have h1 : (1 : ℚ) / 2 * (2 : ℚ) ^ (-1074 : Int) = 1 / 2 ^ 1075 := by
        rw [zpow_neg]
        norm_num
      linarith
    · have : q = floorLog2 x.num.natAbs x.den - 52 := by rw [hq]; exact max_eq_left hcase
      rw [this, zpow_sub₀ (by norm_num)]
      have h1 : (1 : ℚ) / 2 * ((2 : ℚ) ^ floorLog2 x.num.natAbs x.den / (2 : ℚ) ^ (52 : Int)) =
          (2 : ℚ) ^ floorLog2 x.num.natAbs x.den / 2 ^ 53 := by
        norm_num
        ring
      rw [h1]
      have h2 : (2 : ℚ) ^ floorLog2 x.num.natAbs x.den / 2 ^ 53 ≤ |x| / 2 ^ 53 :=
        div_le_div_of_nonneg_right hlog (by positivity)
      have h3 : (0 : ℚ) ≤ 1 / 2 ^ 1075 := by positivity
      linarith
  obtain ⟨v, hflv, hbound⟩ := hfl
  rw [hflv]
  split_ifs with hneg
  · have : -v - x = -(v - |x|) := by rw [abs_of_neg hneg]; ring
    rw [this, abs_neg]
    exact hbound
  · have : v - x = v - |x| := by rw [abs_of_nonneg (not_lt.mp hneg)]
    rw [this]
    exact hbound

theorem stepFactor_pos : (0 : ℚ) < stepFactor := by
  unfold stepFactor; positivity

theorem one_le_stepFactor : (1 : ℚ) ≤ stepFactor := by
  unfold stepFactor; norm_num

theorem stepFactor_pow_le_two (k : Nat) (hk : k ≤ 11) : stepFactor ^ k ≤ 2 := by
  have h1 : stepFactor ^ k ≤ stepFactor ^ 11 := pow_le_pow_right₀ one_le_stepFactor hk
  have h2 : stepFactor ^ 11 ≤ 2 := by unfold stepFactor; norm_num
  exact h1.trans h2

theorem near_refl (x : ℚ) (hx : 0 < x) : Near 0 x x := by
  refine ⟨hx, hx, ?_, ?_⟩ <;> simp

theorem near_mono (k l : Nat) (y x : ℚ) (h : Near k y x) (hkl : k ≤ l) : Near l y x := by
  obtain ⟨hx, hy, h1, h2⟩ := h
  have hpow : stepFactor ^ k ≤ stepFactor ^ l := pow_le_pow_right₀ one_le_stepFactor hkl
  refine ⟨hx, hy, h1.trans ?_, h2.trans ?_⟩
  · exact mul_le_mul_of_nonneg_left hpow hy.le
  · exact mul_le_mul_of_nonneg_left hpow hx.le

theorem near_mul (k l : Nat) (y x v u : ℚ) (h : Near k y x) (g : Near l v u) :
    Near (k + l) (y * v) (x * u) := by
  obtain ⟨hx, hy, h1, h2⟩ := h
  obtain ⟨hu, hv, g1, g2⟩ := g
  have hck : (0 : ℚ) < stepFactor ^ k := pow_pos stepFactor_pos k
  have hcl : (0 : ℚ) < stepFactor ^ l := pow_pos stepFactor_pos l
  refine ⟨mul_pos hx hu, mul_pos hy hv, ?_, ?_⟩
  · calc x * u ≤ (y * stepFactor ^ k) * (v * stepFactor ^ l) :=
          mul_le_mul h1 g1 hu.le (by positivity)
      _ = y * v * stepFactor ^ (k + l) := by rw [pow_add]; ring
  · calc y * v ≤ (x * stepFactor ^ k) * (u * stepFactor ^ l) :=
          mul_le_mul h2 g2 hv.le (by positivity)
      _ = x * u * stepFactor ^ (k + l) := by rw [pow_add]; ring

theorem near_inv (k : Nat) (y x : ℚ) (h : Near k y x) : Near k y⁻¹ x⁻¹ := by
  obtain ⟨hx, hy, h1, h2⟩ := h
  have hck : (0 : ℚ) < stepFactor ^ k := pow_pos stepFactor_pos k
  refine ⟨inv_pos.mpr hx, inv_pos.mpr hy, ?_, ?_⟩
  · rw [inv_mul_eq_div, le_div_iff₀ hy, inv_mul_le_iff₀ hx]
    linarith
  · rw [inv_mul_eq_div, le_div_iff₀ hx, inv_mul_le_iff₀ hy]
    linarith

theorem near_div (k l : Nat) (y x v u : ℚ) (h : Near k y x) (g : Near l v u) :
    Near (k + l) (y / v) (x / u) := by
  rw [div_eq_mul_inv, div_eq_mul_inv]
  exact near_mul k l y x v⁻¹ u⁻¹ h (near_inv l v u g)

theorem near_add (k : Nat) (y x v u : ℚ) (h : Near k y x) (g : Near k v u) :
    Near k (y + v) (x + u) := by
  obtain ⟨hx, hy, h1, h2⟩ := h
  obtain ⟨hu, hv, g1, g2⟩ := g
  refine ⟨add_pos hx hu, add_pos hy hv, ?_, ?_⟩
  · rw [add_mul]; exact add_le_add h1 g1
  · rw [add_mul]; exact add_le_add h2 g2

/-- One rounding step in the normal range. -/
theorem fl_step (y : ℚ) (hy : 1 / 2 ^ 1022 ≤ y) : Near 1 (fl y) y := by
  have hpos : (0 : ℚ) < y := lt_of_lt_of_le (by positivity) hy
  have herr := fl_error y
  rw [abs_of_pos hpos, abs_le] at herr
  have hsmall : (1 : ℚ) / 2 ^ 1075 ≤ y / 2 ^ 53 := by
    rw [div_le_div_iff₀ (by positivity) (by positivity)]
    have : (1 : ℚ) * 2 ^ 53 = (1 / 2 ^ 1022) * 2 ^ 1075 := by norm_num
    rw [this]
    exact mul_le_mul_of_nonneg_right hy (by positivity)
  have hlow : y * (1 - 1 / 2 ^ 52) ≤ fl y := by
    have : y * (1 - 1 / 2 ^ 52) = y - (y / 2 ^ 53 + y / 2 ^ 53) := by ring
    linarith [herr.1]
  have hhigh : fl y ≤ y * (1 + 1 / 2 ^ 52) := by
    have : y * (1 + 1 / 2 ^ 52) = y + (y / 2 ^ 53 + y / 2 ^ 53) := by ring
    linarith [herr.2]
  have hflpos : 0 < fl y := lt_of_lt_of_le (mul_pos hpos (by norm_num)) hlow
  refine ⟨hpos, hflpos, ?_, ?_⟩
  · rw [pow_one]
    calc y ≤ y * ((1 - 1 / 2 ^ 52) * stepFactor) := by
            have : (1 : ℚ) ≤ (1 - 1 / 2 ^ 52) * stepFactor := by unfold stepFactor; norm_num
            nlinarith
      _ = y * (1 - 1 / 2 ^ 52) * stepFactor := by ring
      _ ≤ fl y * stepFactor := mul_le_mul_of_nonneg_right hlow stepFactor_pos.le
  · rw [pow_one]
    refine hhigh.trans (mul_le_mul_of_nonneg_left ?_ hpos.le)
    unfold stepFactor; norm_num

/-- Rounding a number that is within `k` steps of `x` gives one within `k + 1`
steps, as long as `x` is far from the subnormal range. -/
theorem near_fl (k : Nat) (y x : ℚ) (h : Near k y x) (hk : k ≤ 11) (hx : 1 / 2 ^ 1000 ≤ x) :
    Near (k + 1) (JsNumber.fl y) x := by
  obtain ⟨hxpos, hy, h1, h2⟩ := h
  have hy' : 1 / 2 ^ 1022 ≤ y := by
    have hc := stepFactor_pow_le_two k hk
    have : x ≤ y * 2 := h1.trans (mul_le_mul_of_nonneg_left hc hy.le)
    have h3 : (1 : ℚ) / 2 ^ 1022 ≤ (1 / 2 ^ 1000) / 2 := by norm_num
    linarith
  obtain ⟨_, hfy, s1, s2⟩ := fl_step y hy'
  rw [pow_one] at s1 s2
  have hck : (0 : ℚ) < stepFactor ^ k := pow_pos stepFactor_pos k
  refine ⟨hxpos, hfy, ?_, ?_⟩
  · calc x ≤ y * stepFactor ^ k := h1
      _ ≤ (JsNumber.fl y * stepFactor) * stepFactor ^ k := mul_le_mul_of_nonneg_right s1 hck.le
      _ = JsNumber.fl y * stepFactor ^ (k + 1) := by rw [pow_succ]; ring
  · calc JsNumber.fl y ≤ y * stepFactor := s2
      _ ≤ (x * stepFactor ^ k) * stepFactor := mul_le_mul_of_nonneg_right h2 stepFactor_pos.le
      _ = x * stepFactor ^ (k + 1) := by rw [pow_succ]; ring

/-- Rounding a number that is at least 1 gives at least one half. -/
theorem fl_ge_half (x : ℚ) (hx : 1 ≤ x) : 1 / 2 ≤ fl x := by
  have herr := fl_error x
  rw [abs_of_pos (by linarith : (0 : ℚ) < x), abs_le] at herr
  have h1 : x / 2 ^ 53 ≤ x / 4 := by
    rw [div_le_div_iff₀ (by positivity) (by norm_num)]
    nlinarith
  have h2 : (1 : ℚ) / 2 ^ 1075 ≤ 1 / 4 := by norm_num
  linarith [herr.1]

end JsNumber

namespace Invoices

/-- C19 (the code at the failing input): an invoice for one item, 1 unit at
price 10, is stored with subtotal 10, tax 2026619832316723 / 2^50
(1.7999999999999998) and total 3321404725185741 / 2^48 (the number nearest to
11.8) by the create handler and by the update handler alike. The stored tax
is not 18/100 of the subtotal, and the stored total is neither subtotal + tax
nor 11.8. -/
theorem c19_tax_is_not_eighteen_percent :
    (createInvoice 5 2 1000 (invoiceFor oneItem)).payload.map
        (fun i => (i.items.map (fun x => x.total), i.subtotal, i.tax, i.total)) =
        some ([10], 10, mkRat 2026619832316723 (2 ^ 50), mkRat 3321404725185741 (2 ^ 48)) ∧
      (fun i : Invoice => (i.items.map (fun x => x.total), i.subtotal, i.tax, i.total))
          (updateInvoice draftInvoice 5 1000 (itemsOnly oneItem)).1 =
        ([10], 10, mkRat 2026619832316723 (2 ^ 50), mkRat 3321404725185741 (2 ^ 48)) ∧
      mkRat 2026619832316723 (2 ^ 50) ≠ (10 : ℚ) * 18 / 100 ∧
      mkRat 3321404725185741 (2 ^ 48) ≠ (10 : ℚ) + mkRat 2026619832316723 (2 ^ 50) ∧
      mkRat 3321404725185741 (2 ^ 48) ≠ (10 : ℚ) + (10 : ℚ) * 18 / 100 := by
  decide!

end Invoices

namespace Marketplace

theorem replaceBid_bidders (bids : List Bid) (user : Nat) (amount : Option Int) (now : Int) :
    (replaceBid bids user amount now).map (fun b => b.bidder) =
      bids.map (fun b => b.bidder) := by
  induction bids with
  | nil => rfl
  | cons x rest ih =>
    unfold replaceBid
    cases hx : (x.bidder == user)
    · simp only [Bool.false_eq_true, if_false, List.map_cons, ih]
    · simp only [if_true, List.map_cons]

theorem replaceBid_of_absent (bids : List Bid) (user : Nat) (amount : Option Int) (now : Int)
    (habsent : ∀ b ∈ bids, b.bidder ≠ user) :
    bids.map (fun b => if b.bidder = user then { b with amount := amount, date := now } else b)
      = bids := by
  induction bids with
  | nil => rfl
  | cons x rest ih =>
    rw [List.map_cons, if_neg (habsent x (List.mem_cons_self _ _)),
      ih (fun b hb => habsent b (List.mem_cons_of_mem _ hb))]

/-- With at most one bid per bidder, replacing the first bid of a bidder is
replacing every bid of that bidder. -/
theorem replaceBid_eq_map (bids : List Bid) (user : Nat) (amount : Option Int) (now : Int)
    (hone : OneBidPerBidder bids) :
    replaceBid bids user amount now =
      bids.map (fun b =>
        if b.bidder = user then { b with amount := amount, date := now } else b) := by
  induction bids with
  | nil => rfl
  | cons x rest ih =>
    unfold OneBidPerBidder at hone ih
    rw [List.map_cons, List.nodup_cons] at hone
    unfold replaceBid
    by_cases hx : x.bidder = user
    · have hrest : ∀ b ∈ rest, b.bidder ≠ user := by
        intro b hb hbu
        exact hone.1 (List.mem_map.mpr ⟨b, hb, hbu.trans hx.symm⟩)
      simp only [hx, beq_self_eq_true, if_true, List.map_cons]
      rw [replaceBid_of_absent rest user amount now hrest]
    · have hbeq : (x.bidder == user) = false := by simpa using hx
      simp only [hbeq, Bool.false_eq_true, if_false, List.map_cons, hx]
      rw [ih hone.2]

theorem replaceBid_others (bids : List Bid) (user : Nat) (amount : Option Int) (now : Int) :
    (replaceBid bids user amount now).filter (fun b => b.bidder != user) =
      bids.filter (fun b => b.bidder != user) := by
  induction bids with
  | nil => rfl
  | cons x rest ih =>
    unfold replaceBid
    cases hx : (x.bidder == user)
    · simp only [Bool.false_eq_true, if_false]
      rw [List.filter_cons, List.filter_cons, ih]
    · simp only [if_true]
      rw [List.filter_cons, List.filter_cons]
      simp [bne, hx]

/-- An accepted bid: the stored product and the reply. -/
theorem placeBid_accepted (product : Product) (user : Nat) (amount : Option Int) (now : Int)
    (hseller : product.seller ≠ user) (hamount : amountAtMost amount product.price = false) :
    placeBid product user amount now =
      ({ product with
          bids :=
            match product.bids.find? (fun bid => bid.bidder == user) with
            | some _ => replaceBid product.bids user amount now
            | none => product.bids ++ [{ bidder := user, amount := amount, date := now }] },
        { status := 200, message := "Bid placed successfully",
          payload := some
            { product with
              bids :=
                match product.bids.find? (fun bid => bid.bidder == user) with
                | some _ => replaceBid product.bids user amount now
                | none =>
                  product.bids ++ [{ bidder := user, amount := amount, date := now }] } }) := by
  unfold placeBid
  rw [if_neg hseller, hamount]
  rfl

theorem amountAtMost_some (amount price : Int) :
    amountAtMost (some amount) price = false ↔ price < amount := by
  simp [amountAtMost]

/-- C20: on a product with at most one bid per bidder, an accepted place-bid
request (bidder not the seller, amount above the price) keeps at most one bid
per bidder; if the bidder already has a bid, that bid gets the new amount (and
date) and the number of bids is unchanged; otherwise exactly one bid (bidder,
amount) is appended; the bids of every other bidder are unchanged. -/
theorem c20_bid_replacement (product : Product) (user : Nat) (amount now : Int)
    (hone : OneBidPerBidder product.bids) (hseller : product.seller ≠ user)
    (hamount : product.price < amount) :
    (placeBid product user (some amount) now).2.status = 200 ∧
      OneBidPerBidder (placeBid product user (some amount) now).1.bids ∧
      ((∃ b ∈ product.bids, b.bidder = user) →
        (placeBid product user (some amount) now).1.bids =
            product.bids.map (fun b =>
              if b.bidder = user then { b with amount := some amount, date := now } else b) ∧
          (placeBid product user (some amount) now).1.bids.length = product.bids.length) ∧
      ((∀ b ∈ product.bids, b.bidder ≠ user) →
        (placeBid product user (some amount) now).1.bids =
          product.bids ++ [{ bidder := user, amount := some amount, date := now }]) ∧
      (placeBid product user (some amount) now).1.bids.filter (fun b => b.bidder != user) =
        product.bids.filter (fun b => b.bidder != user) := by
  rw [placeBid_accepted product user (some amount) now hseller
    ((amountAtMost_some amount product.price).mpr hamount)]
  cases hfind : product.bids.find? (fun bid => bid.bidder == user) with
  | none =>
    have habsent : ∀ b ∈ product.bids, b.bidder ≠ user := by
      intro b hb hbu
      have := List.find?_eq_none.mp hfind b hb
      simp [hbu] at this
    refine ⟨rfl, ?_, ?_, fun _ => rfl, ?_⟩
    · unfold OneBidPerBidder at hone ⊢
      simp only [List.map_append, List.map_cons, List.map_nil]
      refine List.Nodup.append hone (List.nodup_singleton _) ?_
      intro x hx hx2
      obtain ⟨b, hb, rfl⟩ := List.mem_map.mp hx
      exact habsent b hb (List.mem_singleton.mp hx2)
    · rintro ⟨b, hb, hbu⟩
      exact absurd hbu (habsent b hb)
    · simp only [List.filter_append]
      simp
  | some found =>
    have hpresent : ∃ b ∈ product.bids, b.bidder = user :=
      ⟨found, List.mem_of_find?_eq_some hfind, by simpa using List.find?_some hfind⟩
    refine ⟨rfl, ?_, fun _ => ⟨?_, ?_⟩, ?_, ?_⟩
    · unfold OneBidPerBidder at hone ⊢
      simp only [replaceBid_bidders]
      exact hone
    · exact replaceBid_eq_map product.bids user (some amount) now hone
    · have h := congrArg List.length (replaceBid_bidders product.bids user (some amount) now)
      simpa using h
    · intro habsent
      obtain ⟨b, hb, hbu⟩ := hpresent
      exact absurd hbu (habsent b hb)
    · exact replaceBid_others product.bids user (some amount) now

/-- C20 (witness): user 3 raises their bid on the sample product to 150. -/
theorem c20_bid_replacement_witness :
    (placeBid sampleProduct 3 (some 150) 30).2.status = 200 ∧
      OneBidPerBidder (placeBid sampleProduct 3 (some 150) 30).1.bids ∧
      (placeBid sampleProduct 3 (some 150) 30).1.bids =
        [{ bidder := 2, amount := some 110, date := 10 },
         { bidder := 3, amount := some 150, date := 30 }] :=
  have h := c20_bid_replacement sampleProduct 3 150 30
    (by unfold OneBidPerBidder; decide) (by decide) (by decide)
  ⟨h.1, h.2.1, (h.2.2.1 ⟨{ bidder := 3, amount := some 120, date := 20 }, by decide, rfl⟩).1⟩

end Marketplace

namespace ColdStorage

/-- A transition request whose status string is neither "cancelled" nor
"completed" stores the same availableCapacity. -/
theorem transition_capacity_kept (cs : Facility) (actor bookingId : Nat) (status : String)
    (h : ¬ (status = "cancelled" ∨ status = "completed")) :
    (transitionBookingStatus cs actor bookingId status).1.facilities.availableCapacity =
      cs.facilities.availableCapacity := by
  rcases transition_cases cs actor bookingId status with hsame | ⟨b, st, hown, hfind, hst⟩
  · rw [hsame]
  · subst hown
    rw [transition_accepted cs bookingId status b st hfind hst]
    have hlive : st.isTerminal = false := by
      cases hterm : st.isTerminal
      · rfl
      · exact absurd ((ofString_terminal_iff hst).mpr hterm) h
    simp only [hlive, Bool.false_eq_true, if_false]

/-- C24: a transitionBookingStatus request whose newStatus is pending,
confirmed or active leaves availableCapacity unchanged (for the owner and for
every other requester); availableCapacity changes only when the requested
status is cancelled or completed. -/
theorem c24_capacity_kept_unless_closing (cs : Facility) (actor bookingId : Nat)
    (status : String) :
    ((status = "pending" ∨ status = "confirmed" ∨ status = "active") →
      (transitionBookingStatus cs actor bookingId status).1.facilities.availableCapacity =
        cs.facilities.availableCapacity) ∧
    ((transitionBookingStatus cs actor bookingId status).1.facilities.availableCapacity ≠
        cs.facilities.availableCapacity →
      status = "cancelled" ∨ status = "completed") := by
  constructor
  · intro hs
    apply transition_capacity_kept
    rcases hs with h | h | h <;> subst h <;> decide
  · intro hne
    by_contra hnot
    exact hne (transition_capacity_kept cs actor bookingId status hnot)

/-- C24 (witness): the owner confirming the pending booking of the sample
facility leaves 40 units free. -/
theorem c24_capacity_kept_unless_closing_witness :
    (transitionBookingStatus sampleFacility 7 11 "confirmed").1.facilities.availableCapacity =
      40 :=
  (c24_capacity_kept_unless_closing sampleFacility 7 11 "confirmed").1 (Or.inr (Or.inl rfl))

end ColdStorage

namespace Marketplace

theorem replaceBid_mem (bids : List Bid) (user : Nat) (amount : Option Int) (now : Int)
    (found : Bid) (hmem : found ∈ bids) (huser : found.bidder = user) :
    ({ bidder := user, amount := amount, date := now } : Bid) ∈
      replaceBid bids user amount now := by
  induction bids with
  | nil => cases hmem
  | cons x rest ih =>
    unfold replaceBid
    by_cases hx : x.bidder = user
    · simp [hx]
    · have hbeq : (x.bidder == user) = false := by simpa using hx
      simp only [hbeq, Bool.false_eq_true, if_false]
      rcases List.mem_cons.mp hmem with h | h
      · exact absurd (h ▸ huser) hx
      · exact List.mem_cons_of_mem _ (ih h)

/-- C25 (counterexample): a place-bid request by user 4 (not the seller)
whose body has no amount is accepted with HTTP 200 and a bid without amount is
stored, so the bid just placed has no amount above the price. -/
theorem c25_bid_without_amount_accepted :
    (placeBid sampleProduct 4 none 30).2.status = 200 ∧
      (placeBid sampleProduct 4 none 30).1.bids =
        sampleProduct.bids ++ [{ bidder := 4, amount := none, date := 30 }] := by
  decide

/-- C25 (amended): a place-bid request is rejected with HTTP 400, the product
(its bids included) unchanged, whenever the bidder is the seller of the
product or the request carries an amount that is not above the price; hence
after an accepted request the bidder is not the seller, the amount, if the
request carries one, is above the price, and the bid just placed (bidder,
amount, date) is among the bids. -/
theorem c25_bid_rejections (product : Product) (user : Nat) (amount : Option Int)
    (now : Int) :
    ((product.seller = user ∨ ∃ a, amount = some a ∧ a ≤ product.price) →
      (placeBid product user amount now).2.status = 400 ∧
        (placeBid product user amount now).1 = product) ∧
    ((placeBid product user amount now).2.status = 200 →
      product.seller ≠ user ∧ (∀ a, amount = some a → product.price < a) ∧
        ({ bidder := user, amount := amount, date := now } : Bid) ∈
          (placeBid product user amount now).1.bids) := by
  by_cases hseller : product.seller = user
  · have h : placeBid product user amount now =
        (product, { status := 400, message := "Cannot bid on your own product",
                    payload := none }) := by
      unfold placeBid; rw [if_pos hseller]
    rw [h]
    exact ⟨fun _ => ⟨rfl, rfl⟩,
      fun h200 => absurd h200 (by show ¬ ((400 : Nat) = 200); decide)⟩
  · cases hle : amountAtMost amount product.price with
    | true =>
      have h : placeBid product user amount now =
          (product, { status := 400, message := "Bid must be higher than current price",
                      payload := none }) := by
        unfold placeBid; rw [if_neg hseller, hle]; rfl
      rw [h]
      exact ⟨fun _ => ⟨rfl, rfl⟩,
        fun h200 => absurd h200 (by show ¬ ((400 : Nat) = 200); decide)⟩
    | false =>
      have habove : ∀ a, amount = some a → product.price < a := by
        intro a ha
        subst ha
        exact (amountAtMost_some a product.price).mp hle
      rw [placeBid_accepted product user amount now hseller hle]
      refine ⟨fun hrej => ?_, fun _ => ⟨hseller, habove, ?_⟩⟩
      · rcases hrej with h | ⟨a, ha, hle2⟩
        · exact absurd h hseller
        · exact absurd (habove a ha) (not_lt.mpr hle2)
      · cases hfind : product.bids.find? (fun bid => bid.bidder == user) with
        | none => simp
        | some found =>
          have hmem : found ∈ product.bids := List.mem_of_find?_eq_some hfind
          have huser : found.bidder = user := by simpa using List.find?_some hfind
          exact replaceBid_mem product.bids user amount now found hmem huser

/-- C25 (witness): the seller (user 1) bidding on the sample product, user 4
bidding 90 on it, and user 4 bidding 150 on it. -/
theorem c25_bid_rejections_witness :
    ((placeBid sampleProduct 1 (some 150) 30).2.status = 400 ∧
        (placeBid sampleProduct 1 (some 150) 30).1 = sampleProduct) ∧
      ((placeBid sampleProduct 4 (some 90) 30).2.status = 400 ∧
        (placeBid sampleProduct 4 (some 90) 30).1 = sampleProduct) ∧
      (sampleProduct.seller ≠ 4 ∧ (∀ a, some (150 : Int) = some a → sampleProduct.price < a) ∧
        ({ bidder := 4, amount := some 150, date := 30 } : Bid) ∈
          (placeBid sampleProduct 4 (some 150) 30).1.bids) :=
  ⟨(c25_bid_rejections sampleProduct 1 (some 150) 30).1 (Or.inl rfl),
    (c25_bid_rejections sampleProduct 4 (some 90) 30).1 (Or.inr ⟨90, rfl, by decide⟩),
    (c25_bid_rejections sampleProduct 4 (some 150) 30).2 (by decide)⟩

end Marketplace

namespace Invoices

/-- C28: an update request by the seller on an invoice whose status is paid is
rejected with HTTP 400 "Cannot update paid invoice" and the stored invoice is
the same in every field (items, subtotal, tax and total included), whatever
the request body. -/
theorem c28_paid_invoice_frozen (invoice : Invoice) (user : Nat) (now : Int)
    (updates : UpdateBody) (hpaid : invoice.status = "paid")
    (hseller : invoice.seller = user) :
    (updateInvoice invoice user now updates).2 =
        { status := 400, message := "Cannot update paid invoice", payload := none } ∧
      (updateInvoice invoice user now updates).1 = invoice := by
  unfold updateInvoice
  rw [if_neg (not_not.mpr hseller), if_pos hpaid]
  exact ⟨rfl, rfl⟩

/-- C28 (witness): the seller sends new items for a paid invoice. -/
theorem c28_paid_invoice_frozen_witness :
    (updateInvoice { draftInvoice with status := "paid" } 5 1000 (itemsOnly sampleItems)).2 =
        { status := 400, message := "Cannot update paid invoice", payload := none } ∧
      (updateInvoice { draftInvoice with status := "paid" } 5 1000 (itemsOnly sampleItems)).1 =
        { draftInvoice with status := "paid" } :=
  c28_paid_invoice_frozen { draftInvoice with status := "paid" } 5 1000
    (itemsOnly sampleItems) rfl rfl

end Invoices

namespace Loans

/-- A payment request on a loan that is not disbursed stores nothing. -/
theorem makePayment_not_disbursed (loan : Loan) (user : Nat) (amount : ℚ) (now : Int)
    (hstatus : loan.status ≠ "disbursed") :
    (makePayment loan user amount now).1 = loan ∧
      (makePayment loan user amount now).2.status = if loan.applicant = user then 400 else 403
      := by
  unfold makePayment
  by_cases happ : loan.applicant = user
  · rw [if_neg (not_not.mpr happ), if_pos hstatus, if_pos happ]
    exact ⟨rfl, rfl⟩
  · rw [if_pos happ, if_neg happ]
    exact ⟨rfl, rfl⟩

/-- C21 (the code at the failing input): on a disbursed loan with totalAmount
1 and nine payments of 0.1, the applicant pays 0.1. The payment is accepted
and appended; the ten stored amounts sum to more than totalAmount, yet the
loan stays disbursed and the reply reports remainingAmount 2^(-53) (about
1.1e-16), because the running sum of line 162 is 0.9999999999999999. -/
theorem c21_tenth_payment_not_repaid :
    (makePayment tenthsLoan 4 (1 / 10) 20).2.status = 200 ∧
      (makePayment tenthsLoan 4 (1 / 10) 20).1.payments =
        tenthsLoan.payments ++
          [{ amount := JsNumber.fl (1 / 10), date := 20, status := "paid" }] ∧
      tenthsLoan.totalAmount <
        ((makePayment tenthsLoan 4 (1 / 10) 20).1.payments.map (fun p => p.amount)).sum ∧
      totalPaid (makePayment tenthsLoan 4 (1 / 10) 20).1.payments =
        mkRat 9007199254740991 (2 ^ 53) ∧
      (makePayment tenthsLoan 4 (1 / 10) 20).1.status = "disbursed" ∧
      ((makePayment tenthsLoan 4 (1 / 10) 20).2.payload).map (fun r => r.remainingAmount) =
        some (mkRat 1 (2 ^ 53)) := by
  decide!

/-- C26: a payment request is accepted (HTTP 200) only on a loan whose status
is disbursed; on a loan in any other status, repaid included, the request of
the applicant is rejected with HTTP 400, and no request, whoever sends it,
changes the loan (payments list and status are as before). -/
theorem c26_no_payment_unless_disbursed (loan : Loan) (user : Nat) (amount : ℚ) (now : Int) :
    ((makePayment loan user amount now).2.status = 200 → loan.status = "disbursed") ∧
    (loan.status ≠ "disbursed" →
      (makePayment loan loan.applicant amount now).2.status = 400 ∧
        (makePayment loan user amount now).2.status ≠ 200 ∧
        (makePayment loan user amount now).1 = loan) := by
  constructor
  · intro h200
    by_contra hstatus
    have h := (makePayment_not_disbursed loan user amount now hstatus).2
    rw [h200] at h
    by_cases happ : loan.applicant = user
    · rw [if_pos happ] at h; exact absurd h (by decide)
    · rw [if_neg happ] at h; exact absurd h (by decide)
  · intro hstatus
    have hself := (makePayment_not_disbursed loan loan.applicant amount now hstatus).2
    have huser := makePayment_not_disbursed loan user amount now hstatus
    rw [if_pos rfl] at hself
    refine ⟨hself, ?_, huser.1⟩
    rw [huser.2]
    by_cases happ : loan.applicant = user
    · rw [if_pos happ]; decide
    · rw [if_neg happ]; decide

/-- C26 (witness): the applicant tries to pay on the repaid loan. -/
theorem c26_no_payment_unless_disbursed_witness :
    (makePayment { disbursedLoan with status := "repaid" } 4 50 30).2.status = 400 ∧
      (makePayment { disbursedLoan with status := "repaid" } 4 50 30).2.status ≠ 200 ∧
      (makePayment { disbursedLoan with status := "repaid" } 4 50 30).1 =
        { disbursedLoan with status := "repaid" } :=
  (c26_no_payment_unless_disbursed { disbursedLoan with status := "repaid" } 4 50 30).2
    (by decide)

/-- C27 (counterexample): an application for 6800 over 24 months is stored
with totalAmount 7956 and emi 331, although 7956 / 24 = 331.5 rounds to 332:
the quotient of line 47 is 331.49999999999994. An application for
12700094.027954256 over 44 months is stored with totalAmount
16658289.999999998 (8943351344660479 / 2^29) and emi 378598, and
emi × 44 − totalAmount exceeds 44 / 2. -/
theorem c27_emi_below_rounded_quotient :
    ((applyLoan 4 9 tieApplication).bind (fun r => r.payload)).map
        (fun l => (l.totalAmount, l.duration, l.emi)) = some (7956, 24, 331) ∧
      emiQuotient 6800 (85 / 10) 24 = mkRat 5831809673723903 (2 ^ 44) ∧
      round ((7956 : ℚ) / 24) = 332 ∧
      ((applyLoan 4 9 driftApplication).bind (fun r => r.payload)).map
        (fun l => (l.totalAmount, l.duration, l.emi)) =
        some (mkRat 8943351344660479 (2 ^ 29), 44, 378598) ∧
      (44 : ℚ) / 2 < |(378598 : ℚ) * 44 - mkRat 8943351344660479 (2 ^ 29)| := by
  refine ⟨by decide!, by decide!, ?_, by decide!, ?_⟩
  · rw [round_eq]
    decide!
  · rw [abs_of_nonneg (by decide!)]
    decide!

/-- An application that comes as an urlencoded body (every value a string)
with amount "6800" and duration "24" is stored with totalAmount 68001156: line
48 concatenates the amount with the interest 1156. -/
theorem applyLoan_string_amount :
    ((applyLoan 4 9
        { amount := JsNumber.BodyValue.text "6800", purpose := some "seeds",
          duration := JsNumber.BodyValue.text "24" }).bind (fun r => r.payload)).map
        (fun l => (l.amount, l.totalAmount, l.emi)) = some (6800, 68001156, 331) := by
  decide!

/-- The quotient of line 47 is within six rounding steps of the exact quotient. -/
theorem emiQuotient_near (a : ℚ) (d : ℕ) (ha : 1 / 2 ≤ a) (hd : 0 < d) (hrange : d < 2 ^ 53) :
    JsNumber.Near 6 (emiQuotient a (85 / 10) d)
      (a * (1 + 85 / 10 / 100 * ((d : ℚ) / 12)) / d) := by
  have hapos : (0 : ℚ) < a := by linarith
  have hd1 : (1 : ℚ) ≤ d := by exact_mod_cast hd
  have hdpos : (0 : ℚ) < d := by linarith
  have hdlt : (d : ℚ) < 2 ^ 53 := by exact_mod_cast hrange
  have n1 : JsNumber.Near 1 (JsNumber.div (85 / 10) 100) (85 / 10 / 100) :=
    JsNumber.near_fl 0 _ _ (JsNumber.near_refl _ (by norm_num)) (by norm_num) (by norm_num)
  have n2 : JsNumber.Near 1 (JsNumber.div d 12) ((d : ℚ) / 12) :=
    JsNumber.near_fl 0 _ _ (JsNumber.near_refl _ (by positivity)) (by norm_num) (by
      have : (1 : ℚ) / 12 ≤ (d : ℚ) / 12 := div_le_div_of_nonneg_right hd1 (by norm_num)
      have h2 : (1 : ℚ) / 2 ^ 1000 ≤ 1 / 12 := by norm_num
      linarith)
  have hprod : (85 / 10 / 100 : ℚ) * (1 / 12) ≤ 85 / 10 / 100 * ((d : ℚ) / 12) := by
    apply mul_le_mul_of_nonneg_left _ (by norm_num)
    exact div_le_div_of_nonneg_right hd1 (by norm_num)
  have n3 : JsNumber.Near 3 (JsNumber.mul (JsNumber.div (85 / 10) 100) (JsNumber.div d 12))
      (85 / 10 / 100 * ((d : ℚ) / 12)) :=
    JsNumber.near_fl 2 _ _ (JsNumber.near_mul 1 1 _ _ _ _ n1 n2) (by norm_num) (by
      have h2 : (1 : ℚ) / 2 ^ 1000 ≤ 85 / 10 / 100 * (1 / 12) := by norm_num
      linarith)
  have hsum : (1 : ℚ) ≤ 1 + 85 / 10 / 100 * ((d : ℚ) / 12) := by
    have : (0 : ℚ) ≤ 85 / 10 / 100 * ((d : ℚ) / 12) := by positivity
    linarith
  have n4 : JsNumber.Near 4
      (JsNumber.add 1 (JsNumber.mul (JsNumber.div (85 / 10) 100) (JsNumber.div d 12)))
      (1 + 85 / 10 / 100 * ((d : ℚ) / 12)) :=
    JsNumber.near_fl 3 _ _
      (JsNumber.near_add 3 _ _ _ _
        (JsNumber.near_mono 0 3 _ _ (JsNumber.near_refl 1 one_pos) (by norm_num)) n3)
      (by norm_num) (by
        have h2 : (1 : ℚ) / 2 ^ 1000 ≤ 1 := by norm_num
        linarith)
  have hmul : (1 : ℚ) / 2 ≤ a * (1 + 85 / 10 / 100 * ((d : ℚ) / 12)) := by nlinarith
  have n5 : JsNumber.Near 5
      (JsNumber.mul a
        (JsNumber.add 1 (JsNumber.mul (JsNumber.div (85 / 10) 100) (JsNumber.div d 12))))
      (a * (1 + 85 / 10 / 100 * ((d : ℚ) / 12))) :=
    JsNumber.near_fl 4 _ _ (JsNumber.near_mono (0 + 4) 4 _ _
      (JsNumber.near_mul 0 4 _ _ _ _ (JsNumber.near_refl a hapos) n4)
      (by norm_num)) (by norm_num) (by
        have h2 : (1 : ℚ) / 2 ^ 1000 ≤ 1 / 2 := by norm_num
        linarith)
  have hquot : (1 : ℚ) / 2 ^ 1000 ≤ a * (1 + 85 / 10 / 100 * ((d : ℚ) / 12)) / d := by
    rw [le_div_iff₀ hdpos]
    have h2 : (1 : ℚ) / 2 ^ 1000 * d ≤ 1 / 2 ^ 1000 * 2 ^ 53 :=
      mul_le_mul_of_nonneg_left hdlt.le (by positivity)
    have h3 : (1 : ℚ) / 2 ^ 1000 * 2 ^ 53 ≤ 1 / 2 := by norm_num
    linarith
  exact JsNumber.near_fl 5 _ _ (JsNumber.near_mono (5 + 0) 5 _ _
    (JsNumber.near_div 5 0 _ _ _ _ n5 (JsNumber.near_refl (d : ℚ) hdpos)) (by norm_num))
    (by norm_num) hquot

/-- The total of line 48 is within five rounding steps of the exact total. -/
theorem totalAmount_near (a : ℚ) (d : ℕ) (ha : 1 / 2 ≤ a) (hd : 0 < d) :
    JsNumber.Near 5 (JsNumber.add a (interestOf a (85 / 10) d))
      (a + a * (85 / 10) / 100 * d / 12) := by
  have hapos : (0 : ℚ) < a := by linarith
  have hd1 : (1 : ℚ) ≤ d := by exact_mod_cast hd
  have hdpos : (0 : ℚ) < d := by linarith
  have m1 : JsNumber.Near 1 (JsNumber.mul a (85 / 10)) (a * (85 / 10)) :=
    JsNumber.near_fl 0 _ _ (JsNumber.near_refl _ (by positivity)) (by norm_num) (by
      have h2 : (1 : ℚ) / 2 ^ 1000 ≤ 1 / 2 * (85 / 10) := by norm_num
      nlinarith)
  have m2 : JsNumber.Near 2 (JsNumber.div (JsNumber.mul a (85 / 10)) 100) (a * (85 / 10) / 100) :=
    JsNumber.near_fl 1 _ _ (JsNumber.near_mono (1 + 0) 1 _ _
      (JsNumber.near_div 1 0 _ _ _ _ m1 (JsNumber.near_refl 100 (by norm_num))) (by norm_num))
      (by norm_num) (by
      have h2 : (1 : ℚ) / 2 ^ 1000 ≤ 1 / 2 * (85 / 10) / 100 := by norm_num
      have h3 : (1 : ℚ) / 2 * (85 / 10) / 100 ≤ a * (85 / 10) / 100 := by
        apply div_le_div_of_nonneg_right _ (by norm_num)
        nlinarith
      linarith)
  have hlow3 : (1 : ℚ) / 2 * (85 / 10) / 100 ≤ a * (85 / 10) / 100 * d := by
    have h3 : (1 : ℚ) / 2 * (85 / 10) / 100 ≤ a * (85 / 10) / 100 := by
      apply div_le_div_of_nonneg_right _ (by norm_num)
      nlinarith
    have h4 : (0 : ℚ) ≤ a * (85 / 10) / 100 := by positivity
    nlinarith
  have m3 : JsNumber.Near 3 (JsNumber.mul (JsNumber.div (JsNumber.mul a (85 / 10)) 100) d)
      (a * (85 / 10) / 100 * d) :=
    JsNumber.near_fl 2 _ _ (JsNumber.near_mono (2 + 0) 2 _ _
      (JsNumber.near_mul 2 0 _ _ _ _ m2 (JsNumber.near_refl (d : ℚ) hdpos)) (by norm_num))
      (by norm_num) (by
      have h2 : (1 : ℚ) / 2 ^ 1000 ≤ 1 / 2 * (85 / 10) / 100 := by norm_num
      linarith)
  have m4 : JsNumber.Near 4 (interestOf a (85 / 10) d) (a * (85 / 10) / 100 * d / 12) :=
    JsNumber.near_fl 3 _ _ (JsNumber.near_mono (3 + 0) 3 _ _
      (JsNumber.near_div 3 0 _ _ _ _ m3 (JsNumber.near_refl 12 (by norm_num))) (by norm_num))
      (by norm_num) (by
      have h2 : (1 : ℚ) / 2 ^ 1000 ≤ 1 / 2 * (85 / 10) / 100 / 12 := by norm_num
      have h3 : (1 : ℚ) / 2 * (85 / 10) / 100 / 12 ≤ a * (85 / 10) / 100 * d / 12 :=
        div_le_div_of_nonneg_right hlow3 (by norm_num)
      linarith)
  have hpos4 : (0 : ℚ) ≤ a * (85 / 10) / 100 * d / 12 := by positivity
  exact JsNumber.near_fl 4 _ _
    (JsNumber.near_add 4 _ _ _ _
      (JsNumber.near_mono 0 4 _ _ (JsNumber.near_refl a hapos) (by norm_num)) m4)
    (by norm_num) (by
      have h2 : (1 : ℚ) / 2 ^ 1000 ≤ 1 / 2 := by norm_num
      linarith)

/-- The quotient of line 47 times the duration differs from the total of line
48 by at most the total divided by 2^47. -/
theorem emiQuotient_mul_duration (a : ℚ) (d : ℕ) (ha : 1 / 2 ≤ a) (hd : 0 < d)
    (hrange : d < 2 ^ 53) :
    |emiQuotient a (85 / 10) d * d - JsNumber.add a (interestOf a (85 / 10) d)| ≤
      JsNumber.add a (interestOf a (85 / 10) d) / 2 ^ 47 := by
  have hdpos : (0 : ℚ) < d := by exact_mod_cast hd
  obtain ⟨_, hq, q1, q2⟩ := emiQuotient_near a d ha hd hrange
  obtain ⟨_, ht, t1, t2⟩ := totalAmount_near a d ha hd
  set Q := emiQuotient a (85 / 10) d
  set T := JsNumber.add a (interestOf a (85 / 10) d)
  have hE : a * (1 + 85 / 10 / 100 * ((d : ℚ) / 12)) = a + a * (85 / 10) / 100 * d / 12 := by
    ring
  have hc6 : (0 : ℚ) < JsNumber.stepFactor ^ 6 := pow_pos JsNumber.stepFactor_pos 6
  have hc5 : (0 : ℚ) < JsNumber.stepFactor ^ 5 := pow_pos JsNumber.stepFactor_pos 5
  -- T ≤ Q d c^11 and Q d ≤ T c^11
  have q1' : a + a * (85 / 10) / 100 * d / 12 ≤ Q * d * JsNumber.stepFactor ^ 6 := by
    rw [← hE]
    have := (div_le_iff₀ hdpos).mp q1
    linarith
  have q2' : Q * d ≤ (a + a * (85 / 10) / 100 * d / 12) * JsNumber.stepFactor ^ 6 := by
    rw [← hE]
    have := mul_le_mul_of_nonneg_right q2 hdpos.le
    rw [show a * (1 + 85 / 10 / 100 * ((d : ℚ) / 12)) / d * JsNumber.stepFactor ^ 6 * d =
      a * (1 + 85 / 10 / 100 * ((d : ℚ) / 12)) * JsNumber.stepFactor ^ 6 by
        field_simp; ring] at this
    exact this
  have hup : Q * d ≤ T * JsNumber.stepFactor ^ 11 := by
    calc Q * d ≤ (a + a * (85 / 10) / 100 * d / 12) * JsNumber.stepFactor ^ 6 := q2'
      _ ≤ (T * JsNumber.stepFactor ^ 5) * JsNumber.stepFactor ^ 6 :=
          mul_le_mul_of_nonneg_right t1 hc6.le
      _ = T * JsNumber.stepFactor ^ 11 := by ring
  have hdown : T ≤ Q * d * JsNumber.stepFactor ^ 11 := by
    calc T ≤ (a + a * (85 / 10) / 100 * d / 12) * JsNumber.stepFactor ^ 5 := t2
      _ ≤ (Q * d * JsNumber.stepFactor ^ 6) * JsNumber.stepFactor ^ 5 :=
          mul_le_mul_of_nonneg_right q1' hc5.le
      _ = Q * d * JsNumber.stepFactor ^ 11 := by ring
  have hnum1 : JsNumber.stepFactor ^ 11 - 1 ≤ 1 / 2 ^ 47 := by
    unfold JsNumber.stepFactor; norm_num
  have hnum2 : JsNumber.stepFactor ^ 11 * (JsNumber.stepFactor ^ 11 - 1) ≤ 1 / 2 ^ 47 := by
    unfold JsNumber.stepFactor; norm_num
  have hQd : 0 < Q * d := mul_pos hq hdpos
  rw [abs_le]
  constructor
  · -- T - Q d ≤ Q d (c^11 - 1) ≤ T c^11 (c^11 - 1)
    have h1 : T - Q * d ≤ Q * d * (JsNumber.stepFactor ^ 11 - 1) := by linarith
    have hnn : (0 : ℚ) ≤ JsNumber.stepFactor ^ 11 - 1 := by
      have := one_le_pow₀ (n := 11) JsNumber.one_le_stepFactor
      linarith
    have h2 : Q * d * (JsNumber.stepFactor ^ 11 - 1) ≤
        T * JsNumber.stepFactor ^ 11 * (JsNumber.stepFactor ^ 11 - 1) :=
      mul_le_mul_of_nonneg_right hup hnn
    have h3 : T * JsNumber.stepFactor ^ 11 * (JsNumber.stepFactor ^ 11 - 1) ≤
        T * (1 / 2 ^ 47) := by
      rw [mul_assoc]
      exact mul_le_mul_of_nonneg_left hnum2 ht.le
    have h4 : T * (1 / 2 ^ 47) = T / 2 ^ 47 := by ring
    linarith
  · have h1 : Q * d - T ≤ T * (JsNumber.stepFactor ^ 11 - 1) := by linarith
    have h3 : T * (JsNumber.stepFactor ^ 11 - 1) ≤ T * (1 / 2 ^ 47) :=
      mul_le_mul_of_nonneg_left hnum1 ht.le
    have h4 : T * (1 / 2 ^ 47) = T / 2 ^ 47 := by ring
    linarith

/-- C27 (amended): a loan application whose amount is a JSON number ≥ 0 and
whose duration is a positive whole number of months (below 2^53), with a
purpose, is stored (HTTP 201) with interestRate 8.5, with totalAmount the
double-precision value of amount + amount × 8.5/100 × duration/12 and with
emi = Math.round of the double-precision quotient of line 47, so emi differs
from that quotient by at most 1/2 and, for an amount of at least 1,
|emi × duration − totalAmount| ≤ duration / 2 + totalAmount / 2^47; the
eligibility endpoint reports the same emi for the same amount and duration. -/
theorem c27_loan_terms (user newId : Nat) (amount : ℚ) (months : ℕ) (purpose : String)
    (hamount : 0 ≤ amount) (hmonths : 0 < months) (hrange : months < 2 ^ 53)
    (hpurpose : purpose ≠ "") :
    ∃ loan,
      applyLoan user newId
          { amount := JsNumber.BodyValue.number amount, purpose := some purpose,
            duration := JsNumber.BodyValue.number months } =
        some { status := 201, message := "Loan application submitted successfully",
               payload := some loan } ∧
      loan.interestRate = 85 / 10 ∧
      loan.duration = months ∧
      loan.totalAmount =
        JsNumber.add (JsNumber.fl amount)
          (JsNumber.div
            (JsNumber.mul
              (JsNumber.div (JsNumber.mul (JsNumber.fl amount) (85 / 10)) 100) months) 12) ∧
      loan.emi = JsNumber.mathRound (emiQuotient (JsNumber.fl amount) (85 / 10) months) ∧
      |loan.emi - emiQuotient (JsNumber.fl amount) (85 / 10) months| ≤ 1 / 2 ∧
      (1 ≤ amount →
        |loan.emi * months - loan.totalAmount| ≤ (months : ℚ) / 2 + loan.totalAmount / 2 ^ 47) ∧
      (eligibility
          { amount := JsNumber.BodyValue.number amount, purpose := some purpose,
            duration := JsNumber.BodyValue.number months }).map (fun e => e.emi) =
        some loan.emi := by
  have _ := hamount
  have hfl : JsNumber.fl (months : ℚ) = months := JsNumber.fl_natCast months hrange
  have hne : (months : ℚ) ≠ 0 := by exact_mod_cast (Nat.pos_iff_ne_zero.mp hmonths)
  have hrate : (8.5 : ℚ) = 85 / 10 := by norm_num
  refine ⟨{ _id := newId, applicant := user, amount := JsNumber.fl amount,
            purpose := purpose, duration := months, interestRate := 8.5,
            emi := emiOf (JsNumber.fl amount) 8.5 months,
            totalAmount :=
              JsNumber.add (JsNumber.fl amount) (interestOf (JsNumber.fl amount) 8.5 months),
            status := "applied", payments := [] }, ?_, hrate, rfl, ?_, ?_, ?_, ?_, ?_⟩
  · unfold applyLoan
    simp only [JsNumber.BodyValue.toNumber?, JsNumber.plusLeft, hfl, if_neg hne,
      if_neg hpurpose]
  · show JsNumber.add (JsNumber.fl amount) (interestOf (JsNumber.fl amount) 8.5 months) = _
    rw [hrate]
    rfl
  · show ((emiOf (JsNumber.fl amount) 8.5 months : Int) : ℚ) = _
    rw [hrate]
    rfl
  · show |((emiOf (JsNumber.fl amount) 8.5 months : Int) : ℚ) - _| ≤ 1 / 2
    rw [hrate]
    exact JsNumber.mathRound_near _
  · intro hone
    show |((emiOf (JsNumber.fl amount) 8.5 months : Int) : ℚ) * months -
        JsNumber.add (JsNumber.fl amount) (interestOf (JsNumber.fl amount) 8.5 months)| ≤
      (months : ℚ) / 2 +
        JsNumber.add (JsNumber.fl amount) (interestOf (JsNumber.fl amount) 8.5 months) / 2 ^ 47
    rw [hrate]
    have hhalf := JsNumber.fl_ge_half amount hone
    have hround := JsNumber.mathRound_near (emiQuotient (JsNumber.fl amount) (85 / 10) months)
    have hdrift := emiQuotient_mul_duration (JsNumber.fl amount) months hhalf hmonths hrange
    have hpos : (0 : ℚ) ≤ months := Nat.cast_nonneg months
    have hsplit :
        ((emiOf (JsNumber.fl amount) (85 / 10) months : Int) : ℚ) * months -
            JsNumber.add (JsNumber.fl amount) (interestOf (JsNumber.fl amount) (85 / 10) months) =
          (((emiOf (JsNumber.fl amount) (85 / 10) months : Int) : ℚ) -
              emiQuotient (JsNumber.fl amount) (85 / 10) months) * months +
            (emiQuotient (JsNumber.fl amount) (85 / 10) months * months -
              JsNumber.add (JsNumber.fl amount)
                (interestOf (JsNumber.fl amount) (85 / 10) months)) := by
      ring
    rw [hsplit]
    refine (abs_add _ _).trans ?_
    rw [abs_mul, abs_of_nonneg hpos]
    have hfirst :
        |((emiOf (JsNumber.fl amount) (85 / 10) months : Int) : ℚ) -
            emiQuotient (JsNumber.fl amount) (85 / 10) months| * months ≤
          1 / 2 * months :=
      mul_le_mul_of_nonneg_right hround hpos
    linarith
  · unfold eligibility
    simp only [JsNumber.BodyValue.toNumber?, hfl, if_neg hne, Option.map_some']

/-- C27 (witness): 1200 over 12 months. -/
theorem c27_loan_terms_witness :
    ∃ loan,
      applyLoan 4 9
          { amount := JsNumber.BodyValue.number 1200, purpose := some "seeds",
            duration := JsNumber.BodyValue.number (12 : ℕ) } =
        some { status := 201, message := "Loan application submitted successfully",
               payload := some loan } ∧
      loan.interestRate = 85 / 10 ∧
      loan.duration = (12 : ℕ) ∧
      loan.totalAmount =
        JsNumber.add (JsNumber.fl 1200)
          (JsNumber.div
            (JsNumber.mul
              (JsNumber.div (JsNumber.mul (JsNumber.fl 1200) (85 / 10)) 100) (12 : ℕ)) 12) ∧
      loan.emi = JsNumber.mathRound (emiQuotient (JsNumber.fl 1200) (85 / 10) (12 : ℕ)) ∧
      |loan.emi - emiQuotient (JsNumber.fl 1200) (85 / 10) (12 : ℕ)| ≤ 1 / 2 ∧
      ((1 : ℚ) ≤ 1200 →
        |loan.emi * (12 : ℕ) - loan.totalAmount| ≤
          ((12 : ℕ) : ℚ) / 2 + loan.totalAmount / 2 ^ 47) ∧
      (eligibility
          { amount := JsNumber.BodyValue.number 1200, purpose := some "seeds",
            duration := JsNumber.BodyValue.number (12 : ℕ) }).map (fun e => e.emi) =
        some loan.emi :=
  c27_loan_terms 4 9 1200 12 "seeds" (by norm_num) (by norm_num) (by norm_num) (by decide)

end Loans

namespace FPO

theorem any_user_iff (members : List Member) (user : Nat) :
    members.any (fun member => member.user == user) = true ↔
      user ∈ members.map (fun m => m.user) := by
  simp only [List.any_eq_true, List.mem_map, beq_iff_eq]

/-- The index found by `findIndex` splits the list: no entry before it
matches, the entry at it matches, and `splice(index, 1)` removes exactly that
entry. -/
theorem eraseIdx_of_findIdx? {α : Type} (p : α → Bool) (l : List α) (i : Nat)
    (h : l.findIdx? p = some i) :
    ∃ pre m post, l = pre ++ m :: post ∧ p m = true ∧ (∀ x ∈ pre, p x = false) ∧
      l.eraseIdx i = pre ++ post := by
  induction l generalizing i with
  | nil => simp at h
  | cons x rest ih =>
    rw [List.findIdx?_cons] at h
    cases hx : p x with
    | true =>
      rw [hx, if_pos rfl] at h
      have hi : i = 0 := by simpa using h.symm
      subst hi
      exact ⟨[], x, rest, rfl, hx, fun _ hmem => (by cases hmem), rfl⟩
    | false =>
      rw [hx, if_neg (by decide), List.findIdx?_succ] at h
      cases hrest : rest.findIdx? p 0 with
      | none => rw [hrest] at h; cases h
      | some j =>
        rw [hrest] at h
        have hi : i = j + 1 := by simpa using h.symm
        subst hi
        obtain ⟨pre, m, post, hl, hm, hpre, herase⟩ := ih j hrest
        refine ⟨x :: pre, m, post, by rw [hl]; rfl, hm, ?_, ?_⟩
        · intro y hy
          rcases List.mem_cons.mp hy with hyx | hyp
          · rw [hyx]; exact hx
          · exact hpre y hyp
        · rw [List.eraseIdx_cons_succ, herase]; rfl

theorem join_rejected (fpo : Org) (user : Nat) (now : Int)
    (hmem : user ∈ fpo.members.map (fun m => m.user)) :
    join fpo user now =
      (fpo, { status := 400, message := "Already a member of this FPO", payload := none }) := by
  unfold join
  rw [if_pos ((any_user_iff fpo.members user).mpr hmem)]

theorem join_accepted (fpo : Org) (user : Nat) (now : Int)
    (hnot : user ∉ fpo.members.map (fun m => m.user)) :
    join fpo user now =
      ({ fpo with
          members := fpo.members ++ [{ user := user, role := "member", joinedAt := now }] },
        { status := 200, message := "Successfully joined FPO",
          payload := some
            { fpo with
              members :=
                fpo.members ++ [{ user := user, role := "member", joinedAt := now }] } }) := by
  unfold join
  rw [if_neg (fun h => hnot ((any_user_iff fpo.members user).mp h))]

/-- C22: on an FPO whose member list holds no user twice, a join request keeps
that: a join by a user who is already a member is rejected with HTTP 400 and
changes nothing, and a join by any other user is accepted and appends exactly
one entry for that user, with role member. -/
theorem c22_join_keeps_members_distinct (fpo : Org) (user : Nat) (now : Int)
    (hdistinct : NoDuplicateMembers fpo) :
    NoDuplicateMembers (join fpo user now).1 ∧
      (user ∈ fpo.members.map (fun m => m.user) →
        (join fpo user now).2.status = 400 ∧ (join fpo user now).1 = fpo) ∧
      (user ∉ fpo.members.map (fun m => m.user) →
        (join fpo user now).2.status = 200 ∧
          (join fpo user now).1.members =
            fpo.members ++ [{ user := user, role := "member", joinedAt := now }]) := by
  by_cases hmem : user ∈ fpo.members.map (fun m => m.user)
  · rw [join_rejected fpo user now hmem]
    exact ⟨hdistinct, fun _ => ⟨rfl, rfl⟩, fun h => absurd hmem h⟩
  · rw [join_accepted fpo user now hmem]
    refine ⟨?_, fun h => absurd h hmem, fun _ => ⟨rfl, rfl⟩⟩
    unfold NoDuplicateMembers at hdistinct ⊢
    simp only [List.map_append, List.map_cons, List.map_nil]
    refine List.Nodup.append hdistinct (List.nodup_singleton _) ?_
    intro x hx hx2
    rw [List.mem_singleton.mp hx2] at hx
    exact hmem hx

/-- C22 (witness): user 8 (already a member) and user 9 (not yet) join the
sample organisation. -/
theorem c22_join_keeps_members_distinct_witness :
    NoDuplicateMembers (join sampleOrg 9 40).1 ∧
      ((join sampleOrg 8 40).2.status = 400 ∧ (join sampleOrg 8 40).1 = sampleOrg) ∧
      ((join sampleOrg 9 40).2.status = 200 ∧
        (join sampleOrg 9 40).1.members =
          sampleOrg.members ++ [{ user := 9, role := "member", joinedAt := 40 }]) :=
  ⟨(c22_join_keeps_members_distinct sampleOrg 9 40 (by unfold NoDuplicateMembers; decide)).1,
    (c22_join_keeps_members_distinct sampleOrg 8 40
      (by unfold NoDuplicateMembers; decide)).2.1 (by decide),
    (c22_join_keeps_members_distinct sampleOrg 9 40
      (by unfold NoDuplicateMembers; decide)).2.2 (by decide)⟩

end FPO

namespace FPO

theorem leave_nonmember (fpo : Org) (user : Nat)
    (hnot : user ∉ fpo.members.map (fun m => m.user)) :
    leave fpo user =
      (fpo, { status := 400, message := "Not a member of this FPO", payload := none }) := by
  have hnone : fpo.members.findIdx? (fun member => member.user == user) = none := by
    rw [List.findIdx?_eq_none_iff]
    intro x hx
    have hne : x.user ≠ user := fun h => hnot (List.mem_map.mpr ⟨x, hx, h⟩)
    simpa using hne
  unfold leave
  rw [hnone]

theorem leave_founder (fpo : Org) :
    (leave fpo fpo.founder).2.status = 400 ∧ (leave fpo fpo.founder).1 = fpo := by
  unfold leave
  split
  · exact ⟨rfl, rfl⟩
  · rw [if_pos rfl]
    exact ⟨rfl, rfl⟩

theorem leave_member (fpo : Org) (user : Nat) (hfounder : user ≠ fpo.founder)
    (hmem : user ∈ fpo.members.map (fun m => m.user)) :
    ∃ pre m post, fpo.members = pre ++ m :: post ∧ m.user = user ∧
      (∀ x ∈ pre, x.user ≠ user) ∧
      leave fpo user =
        ({ fpo with members := pre ++ post },
          { status := 200, message := "Successfully left FPO", payload := none }) := by
  cases hidx : fpo.members.findIdx? (fun member => member.user == user) with
  | none =>
    rw [List.findIdx?_eq_none_iff] at hidx
    obtain ⟨x, hx, hxu⟩ := List.mem_map.mp hmem
    have := hidx x hx
    simp [hxu] at this
  | some i =>
    obtain ⟨pre, m, post, hl, hm, hpre, herase⟩ :=
      eraseIdx_of_findIdx? (fun member : Member => member.user == user) fpo.members i hidx
    refine ⟨pre, m, post, hl, by simpa using hm, ?_, ?_⟩
    · intro x hx
      simpa using hpre x hx
    · unfold leave
      rw [hidx]
      simp only [if_neg (fun h : fpo.founder = user => hfounder h.symm), herase]

theorem founder_stays_join (fpo : Org) (user : Nat) (now : Int) (h : FounderIsMember fpo) :
    FounderIsMember (join fpo user now).1 := by
  by_cases hmem : user ∈ fpo.members.map (fun m => m.user)
  · rw [join_rejected fpo user now hmem]; exact h
  · rw [join_accepted fpo user now hmem]
    unfold FounderIsMember at h ⊢
    simp only [List.map_append, List.mem_append]
    exact Or.inl h

theorem founder_stays_leave (fpo : Org) (user : Nat) (h : FounderIsMember fpo) :
    FounderIsMember (leave fpo user).1 := by
  by_cases hfounder : user = fpo.founder
  · subst hfounder
    rw [(leave_founder fpo).2]; exact h
  · by_cases hmem : user ∈ fpo.members.map (fun m => m.user)
    · obtain ⟨pre, m, post, hl, hm, _, hleave⟩ := leave_member fpo user hfounder hmem
      rw [hleave]
      unfold FounderIsMember at h ⊢
      rw [hl] at h
      simp only [List.map_append, List.map_cons, List.mem_append, List.mem_cons] at h ⊢
      rcases h with h | h | h
      · exact Or.inl h
      · exact absurd (h.trans hm).symm hfounder
      · exact Or.inr h
    · rw [leave_nonmember fpo user hmem]; exact h

/-- C23: a leave request by the founder is rejected with HTTP 400 and leaves
the member list unchanged; a leave request by a non-member is rejected with
HTTP 400; a leave request by any other member is accepted and removes exactly
the entry of that user, every other entry staying in place; so a founder who
is a member is still a member after any sequence of join and leave requests. -/
theorem c23_founder_cannot_leave (fpo : Org) (user : Nat) :
    (user = fpo.founder →
      (leave fpo user).2.status = 400 ∧ (leave fpo user).1 = fpo) ∧
    (user ∉ fpo.members.map (fun m => m.user) →
      (leave fpo user).2.status = 400 ∧ (leave fpo user).1 = fpo) ∧
    (user ≠ fpo.founder → user ∈ fpo.members.map (fun m => m.user) →
      (leave fpo user).2.status = 200 ∧
        ∃ pre m post, fpo.members = pre ++ m :: post ∧ m.user = user ∧
          (∀ x ∈ pre, x.user ≠ user) ∧ (leave fpo user).1.members = pre ++ post) ∧
    (FounderIsMember fpo →
      ∀ fpo', Relation.ReflTransGen MembershipStep fpo fpo' → FounderIsMember fpo') := by
  refine ⟨?_, ?_, ?_, ?_⟩
  · intro h
    subst h
    exact leave_founder fpo
  · intro hnot
    rw [leave_nonmember fpo user hnot]
    exact ⟨rfl, rfl⟩
  · intro hfounder hmem
    obtain ⟨pre, m, post, hl, hm, hpre, hleave⟩ := leave_member fpo user hfounder hmem
    rw [hleave]
    exact ⟨rfl, pre, m, post, hl, hm, hpre, rfl⟩
  · intro h fpo' hreach
    induction hreach with
    | refl => exact h
    | tail _ hstep ih =>
      cases hstep with
      | join u now => exact founder_stays_join _ u now ih
      | leave u => exact founder_stays_leave _ u ih

/-- C23 (witness): in the sample organisation the founder (user 5) cannot
leave, member 8 can, and the founder is still a member after user 9 joins,
user 8 leaves and the founder tries to leave. -/
theorem c23_founder_cannot_leave_witness :
    ((leave sampleOrg 5).2.status = 400 ∧ (leave sampleOrg 5).1 = sampleOrg) ∧
      (leave sampleOrg 8).2.status = 200 ∧
      FounderIsMember (leave (leave (join sampleOrg 9 40).1 8).1 5).1 :=
  ⟨(c23_founder_cannot_leave sampleOrg 5).1 rfl,
    ((c23_founder_cannot_leave sampleOrg 8).2.2.1 (by decide) (by decide)).1,
    (c23_founder_cannot_leave sampleOrg 5).2.2.2 (by unfold FounderIsMember; decide) _
      (Relation.ReflTransGen.tail
        (Relation.ReflTransGen.tail
          (Relation.ReflTransGen.single (MembershipStep.join sampleOrg 9 40))
          (MembershipStep.leave _ 8))
        (MembershipStep.leave _ 5))⟩

theorem plusRight_orZero (total : ℚ) (v : JsNumber.BodyValue) (hv : NotText v) :
    JsNumber.plusRight total (orZero v) = some (JsNumber.add total (addend v)) := by
  cases v with
  | absent =>
    show some (JsNumber.add total (JsNumber.fl 0)) = _
    have h0 : JsNumber.fl 0 = 0 := by simp [JsNumber.fl]
    rw [h0]; rfl
  | number literal =>
    unfold orZero
    by_cases hz : JsNumber.fl literal = 0
    · simp only [hz, if_true, JsNumber.plusRight, addend]
      have h0 : JsNumber.fl 0 = 0 := by simp [JsNumber.fl]
      rw [h0]
    · simp only [hz, if_false, JsNumber.plusRight, addend]
  | text s => exact absurd rfl (hv s)

theorem isAdmin_iff (fpo : Org) (user : Nat) :
    fpo.members.any (fun member => member.user == user && member.role == "admin") = true ↔
      ∃ m ∈ fpo.members, m.user = user ∧ m.role = "admin" := by
  rw [List.any_eq_true]
  constructor
  · rintro ⟨m, hm, hp⟩
    simp only [Bool.and_eq_true, beq_iff_eq] at hp
    exact ⟨m, hm, hp.1, hp.2⟩
  · rintro ⟨m, hm, hu, hr⟩
    exact ⟨m, hm, by simp [hu, hr]⟩

theorem updateFinances_admin (fpo : Org) (user : Nat) (revenue expenses : JsNumber.BodyValue)
    (hadmin : ∃ m ∈ fpo.members, m.user = user ∧ m.role = "admin")
    (hrev : NotText revenue) (hexp : NotText expenses) :
    updateFinances fpo user revenue expenses =
      some ({ fpo with
          finances :=
            { totalRevenue := JsNumber.add fpo.finances.totalRevenue (addend revenue),
              totalExpenses := JsNumber.add fpo.finances.totalExpenses (addend expenses),
              profit :=
                JsNumber.sub (JsNumber.add fpo.finances.totalRevenue (addend revenue))
                  (JsNumber.add fpo.finances.totalExpenses (addend expenses)) } },
        { status := 200, message := "Finances updated successfully",
          payload := some
            { totalRevenue := JsNumber.add fpo.finances.totalRevenue (addend revenue),
              totalExpenses := JsNumber.add fpo.finances.totalExpenses (addend expenses),
              profit :=
                JsNumber.sub (JsNumber.add fpo.finances.totalRevenue (addend revenue))
                  (JsNumber.add fpo.finances.totalExpenses (addend expenses)) } }) := by
  unfold updateFinances
  rw [if_pos ((isAdmin_iff fpo user).mpr hadmin), plusRight_orZero _ _ hrev,
    plusRight_orZero _ _ hexp]

theorem updateFinances_not_admin (fpo : Org) (user : Nat)
    (revenue expenses : JsNumber.BodyValue)
    (hnot : ¬ ∃ m ∈ fpo.members, m.user = user ∧ m.role = "admin") :
    updateFinances fpo user revenue expenses =
      some (fpo, { status := 403, message := "Not authorized", payload := none }) := by
  unfold updateFinances
  rw [if_neg (fun h => hnot ((isAdmin_iff fpo user).mp h))]

/-- C29 (counterexample): admin 5 sends revenue as the string "50" (as in an
urlencoded body) on totals 100 and 30: the update is accepted and the stored
totalRevenue is 10050, the old total with "50" appended, not 150. With
fractional numbers the sum is rounded: revenue 0.2 on totalRevenue 0.1 stores
0.30000000000000004 (1351079888211149 / 2^52), which is not the old total plus
the revenue. -/
theorem c29_string_revenue_concatenated :
    updateFinances sampleOrg 5 (JsNumber.BodyValue.text "50") JsNumber.BodyValue.absent =
      some ({ sampleOrg with
          finances := { totalRevenue := 10050, totalExpenses := 30, profit := 10020 } },
        { status := 200, message := "Finances updated successfully",
          payload := some { totalRevenue := 10050, totalExpenses := 30, profit := 10020 } }) ∧
      (updateFinances fractionOrg 5 (JsNumber.BodyValue.number (2 / 10))
          JsNumber.BodyValue.absent).map (fun r => r.1.finances.totalRevenue) =
        some (mkRat 1351079888211149 (2 ^ 52)) ∧
      mkRat 1351079888211149 (2 ^ 52) ≠
        fractionOrg.finances.totalRevenue + JsNumber.fl (2 / 10) := by
  decide!

/-- C29 (amended): a finances update by a member with role admin whose revenue
and expenses are each missing or a JSON number is accepted (HTTP 200):
totalRevenue and totalExpenses become the double-precision sums of the old
totals and the revenue and expenses of the request (a missing value counting
as 0), profit is the double-precision difference of the new totals, and
nothing else of the FPO changes; a request by a user who is not an admin
member is rejected with HTTP 403 and changes nothing, whatever its body. -/
theorem c29_finances_update (fpo : Org) (user : Nat) (revenue expenses : JsNumber.BodyValue) :
    ((∃ m ∈ fpo.members, m.user = user ∧ m.role = "admin") →
      NotText revenue → NotText expenses →
      ∃ saved finances,
        updateFinances fpo user revenue expenses =
          some (saved, { status := 200, message := "Finances updated successfully",
                         payload := some finances }) ∧
        saved = { fpo with finances := finances } ∧
        finances.totalRevenue = JsNumber.add fpo.finances.totalRevenue (addend revenue) ∧
        finances.totalExpenses = JsNumber.add fpo.finances.totalExpenses (addend expenses) ∧
        finances.profit = JsNumber.sub finances.totalRevenue finances.totalExpenses) ∧
    ((¬ ∃ m ∈ fpo.members, m.user = user ∧ m.role = "admin") →
      updateFinances fpo user revenue expenses =
        some (fpo, { status := 403, message := "Not authorized", payload := none })) := by
  constructor
  · intro hadmin hrev hexp
    exact ⟨_, _, updateFinances_admin fpo user revenue expenses hadmin hrev hexp,
      rfl, rfl, rfl, rfl⟩
  · intro hnot
    exact updateFinances_not_admin fpo user revenue expenses hnot

/-- C29 (witness): admin 5 books revenue 50 with no expenses (revenue 150,
expenses 30, profit 120); member 8, not an admin, is refused. -/
theorem c29_finances_update_witness :
    (∃ saved finances,
        updateFinances sampleOrg 5 (JsNumber.BodyValue.number 50) JsNumber.BodyValue.absent =
          some (saved, { status := 200, message := "Finances updated successfully",
                         payload := some finances }) ∧
        saved = { sampleOrg with finances := finances } ∧
        finances.totalRevenue =
          JsNumber.add sampleOrg.finances.totalRevenue
            (addend (JsNumber.BodyValue.number 50)) ∧
        finances.totalExpenses =
          JsNumber.add sampleOrg.finances.totalExpenses (addend JsNumber.BodyValue.absent) ∧
        finances.profit = JsNumber.sub finances.totalRevenue finances.totalExpenses) ∧
      updateFinances sampleOrg 8 (JsNumber.BodyValue.number 50) JsNumber.BodyValue.absent =
        some (sampleOrg, { status := 403, message := "Not authorized", payload := none }) :=
  ⟨(c29_finances_update sampleOrg 5 (JsNumber.BodyValue.number 50)
        JsNumber.BodyValue.absent).1
      ⟨{ user := 5, role := "admin", joinedAt := 0 }, by decide, rfl, rfl⟩
      (fun s h => by cases h) (fun s h => by cases h),
    (c29_finances_update sampleOrg 8 (JsNumber.BodyValue.number 50)
        JsNumber.BodyValue.absent).2 (by decide)⟩

/-- The sample update of the witness stores revenue 150, expenses 30 and
profit 120. -/
theorem updateFinances_sample :
    (updateFinances sampleOrg 5 (JsNumber.BodyValue.number 50)
        JsNumber.BodyValue.absent).map (fun r => r.1.finances) =
      some { totalRevenue := 150, totalExpenses := 30, profit := 120 } := by
  decide!

end FPO
